import Mathlib

/-!
Verification of the `doner` retrieval-and-filtering core against its
specification.  The Rust sources (`src/github.rs`, `src/time_filter.rs`,
`src/models.rs`) are shallowly embedded: pure functions become Lean
functions, the paginated fetch loop becomes explicit recursion over a
finite list of synthetic page responses, `chrono::NaiveDate` values are
embedded as their proleptic-Gregorian day numbers (an `Int`), and
`chrono::DateTime<Utc>` instants as `Int` seconds.  The wall clock
(`Utc::now`, `Local::now`) is passed in explicitly, matching the spec's
injectable-clock reading of the same code.
-/

namespace Doner

/-! ## Calendar model

`chrono::NaiveDate` is represented by its day number relative to
1970-01-01 (negative before).  `days_from_civil` is the standard civil
calendar conversion; comparisons and day-arithmetic on `NaiveDate`
correspond exactly to the same operations on day numbers. -/

/-- Day number of the proleptic Gregorian date `y-m-d`, relative to 1970-01-01. -/
def days_from_civil (y m d : Int) : Int :=
  let y' := if m ≤ 2 then y - 1 else y
  let era := Int.fdiv y' 400
  let yoe := y' - era * 400
  let mp := Int.emod (m + 9) 12
  let doy := Int.fdiv (153 * mp + 2) 5 + d - 1
  let doe := yoe * 365 + Int.fdiv yoe 4 - Int.fdiv yoe 100 + doy
  era * 146097 + doe - 719468

/-- Gregorian leap-year test. -/
def is_leap (y : Int) : Bool :=
  decide ((Int.emod y 4 = 0 ∧ ¬ Int.emod y 100 = 0) ∨ Int.emod y 400 = 0)

/-- Number of days in month `m` of year `y`. -/
def days_in_month (y m : Int) : Int :=
  if m = 2 then (if is_leap y then 29 else 28)
  else if m = 4 ∨ m = 6 ∨ m = 9 ∨ m = 11 then 30
  else 31

/-- Numeric value of a digit string. -/
def digits_val (cs : List Char) : Nat :=
  cs.foldl (fun a c => a * 10 + (c.toNat - 48)) 0

/-- Rust `str::split(sep)` on the character list of a string: every occurrence
of `sep` separates two (possibly empty) fields. -/
def split_on_char (sep : Char) : List Char → List (List Char)
  | [] => [[]]
  | c :: rest =>
    let r := split_on_char sep rest
    if c = sep then [] :: r
    else
      match r with
      | [] => [[c]]
      | h :: t => (c :: h) :: t

/-- Rust `str::trim` on a character list (whitespace model: ASCII). -/
def trim_chars (cs : List Char) : List Char :=
  ((cs.dropWhile Char.isWhitespace).reverse.dropWhile Char.isWhitespace).reverse

/-- Rust `str::starts_with`. -/
def str_starts_with (s p : String) : Bool :=
  p.data.isPrefixOf s.data

/-- Embedding of `NaiveDate::parse_from_str(s, "%Y-%m-%d")`: three dash-separated
decimal fields, month and day of one or two digits, validated against the
civil calendar; the parsed date is returned as its day number. -/
def parse_naive_date (s : String) : Option Int :=
  match split_on_char '-' s.data with
  | [ys, ms, ds] =>
    if ys ≠ [] ∧ ys.all Char.isDigit
        ∧ ms ≠ [] ∧ ms.length ≤ 2 ∧ ms.all Char.isDigit
        ∧ ds ≠ [] ∧ ds.length ≤ 2 ∧ ds.all Char.isDigit then
      let y : Int := digits_val ys
      let m : Int := digits_val ms
      let d : Int := digits_val ds
      if 1 ≤ m ∧ m ≤ 12 ∧ 1 ≤ d ∧ d ≤ days_in_month y m then
        some (days_from_civil y m d)
      else none
    else none
  | _ => none

/-! ## Iteration matching (`src/github.rs`, lines 12-100)

`today` stands for `Utc::now().date_naive()`, passed in explicitly. -/

/-- The fixed sprint length used by the source (`let sprint_length = 14`). -/
def sprint_length : Int := 14

/-- Embedding of `is_current_iteration`: the start date parses and
`start <= today < start + sprint_length`. -/
def is_current_iteration (today : Int) (start_date : Option String) : Bool :=
  match start_date with
  | none => false
  | some start_str =>
    match parse_naive_date start_str with
    | none => false
    | some start => decide (start ≤ today ∧ today < start + sprint_length)

/-- Embedding of `is_recent_past_iteration`: the start date parses and falls in
`[today - 2*sprint_length, today - sprint_length)`. -/
def is_recent_past_iteration (today : Int) (start_date : Option String) : Bool :=
  match start_date with
  | none => false
  | some start_str =>
    match parse_naive_date start_str with
    | none => false
    | some start =>
      let prev_start := today - sprint_length * 2
      let prev_end := today - sprint_length
      decide (prev_start ≤ start ∧ start < prev_end)

/-- The comma-separated, whitespace-trimmed token list of a filter expression
(`filter.split(',').map(|s| s.trim())`). -/
def tokens_of (filter : String) : List String :=
  (split_on_char ',' filter.data).map (fun cs => String.mk (trim_chars cs))

/-- One arm of the token loop in `matches_iteration_filter`: `@current` and
`@previous` test the start date, any other token is an exact title match. -/
def token_matches (today : Int) (iteration_title iteration_start : Option String)
    (part : String) : Bool :=
  if part = "@current" then is_current_iteration today iteration_start
  else if part = "@previous" then is_recent_past_iteration today iteration_start
  else iteration_title == some part

/-- Embedding of `matches_iteration_filter`: `@all` as the whole filter always
matches; a filter string starting with `@` never matches an item without an
iteration title; otherwise the item matches when any token matches. -/
def matches_iteration_filter (today : Int) (iteration_title iteration_start : Option String)
    (filter : String) : Bool :=
  if filter = "@all" then true
  else if str_starts_with filter "@" && iteration_title.isNone then false
  else (tokens_of filter).any (token_matches today iteration_title iteration_start)

/-! ## Project identifier resolution (`src/github.rs`, lines 127-161)

`resolve_project_id` either answers locally (a node id, or a shape error)
or proceeds to the network lookups; the embedding records which. -/

/-- Outcome of the local phase of `resolve_project_id`: answered without the
network (`done`/`failed`), or a graph-API lookup with the parsed owner and
number is issued (`lookup`). -/
inductive ResolveStep where
  | done (id : String)
  | failed (msg : String)
  | lookup (owner : String) (number : Nat)
deriving DecidableEq, Repr

/-- Embedding of `str::parse::<u32>`: an optional leading `+`, then one or more
decimal digits, value below `2^32`. -/
def parse_u32 (s : String) : Option Nat :=
  let t :=
    match s.data with
    | '+' :: rest => rest
    | cs => cs
  if t ≠ [] ∧ t.all Char.isDigit then
    let n := digits_val t
    if n < 4294967296 then some n else none
  else none

/-- Embedding of `resolve_project_id` up to its first network call: a `PVT_`
prefix is returned as-is, otherwise the input must be `owner/number`. -/
def resolve_project_id (project_id : String) : ResolveStep :=
  if str_starts_with project_id "PVT_" then ResolveStep.done project_id
  else
    match split_on_char '/' project_id.data with
    | [owner, number_str] =>
      match parse_u32 (String.mk number_str) with
      | some n => ResolveStep.lookup (String.mk owner) n
      | none => ResolveStep.failed "Project number must be a positive integer"
    | _ =>
      ResolveStep.failed "Invalid project ID format. Use \x27owner/number\x27 (e.g., \x27myorg/5\x27) or a GraphQL node ID (starting with \x27PVT_\x27)"

/-! ## GraphQL data model (`src/models.rs`) -/

/-- One entry of a graph-API `errors` array. -/
structure GraphQLError where
  message : String
deriving DecidableEq, Repr

/-- Top-level shape of every graph-API response body. -/
structure GraphQLResponse (T : Type) where
  data : Option T
  errors : Option (List GraphQLError)
deriving DecidableEq, Repr

/-- Polymorphic board field value: only the single-select variant carries a name. -/
inductive FieldValue where
  | singleSelectValue (name : Option String)
  | other
deriving DecidableEq, Repr

/-- Accessor `FieldValue::name`. -/
def FieldValue.name : FieldValue → Option String
  | FieldValue.singleSelectValue name => name
  | FieldValue.other => none

/-- Polymorphic iteration field value: only the iteration variant carries
a title and start date. -/
inductive IterationValue where
  | iterationValue (title : Option String) (start_date : Option String)
  | other
deriving DecidableEq, Repr

/-- Accessor `IterationValue::title`. -/
def IterationValue.title : IterationValue → Option String
  | IterationValue.iterationValue title _ => title
  | IterationValue.other => none

/-- Accessor `IterationValue::start_date`. -/
def IterationValue.start_date : IterationValue → Option String
  | IterationValue.iterationValue _ start_date => start_date
  | IterationValue.other => none

/-- The `repository { nameWithOwner }` payload of an issue. -/
structure RepositoryInfo where
  name_with_owner : String
deriving DecidableEq, Repr

/-- The parent payload of an issue node. -/
structure ParentIssueContent where
  number : Nat
  title : String
  url : String
deriving DecidableEq, Repr

/-- The issue payload of a content union (`closedAt` embedded as `Int` seconds). -/
structure IssueContent where
  number : Nat
  title : String
  url : String
  closed_at : Option Int
  repository : RepositoryInfo
  parent : Option ParentIssueContent
deriving DecidableEq, Repr

/-- Polymorphic content union of a board item. -/
inductive ItemContent where
  | issue (content : IssueContent)
  | other
deriving DecidableEq, Repr

/-- One raw board item of a page response. -/
structure ProjectItem where
  id : String
  is_archived : Bool
  field_value_by_name : Option FieldValue
  iteration : Option IterationValue
  content : Option ItemContent
deriving DecidableEq, Repr

/-- Pagination cursor state of a page. -/
structure PageInfo where
  has_next_page : Bool
  end_cursor : Option String
deriving DecidableEq, Repr

/-- The items connection of a page. -/
structure ItemConnection where
  nodes : List ProjectItem
  page_info : PageInfo
deriving DecidableEq, Repr

/-- The project node of a page-fetch response. -/
structure ProjectNode where
  items : ItemConnection
deriving DecidableEq, Repr

/-- The `data` payload of a page-fetch response. -/
structure ProjectData where
  node : Option ProjectNode
deriving DecidableEq, Repr

/-- Lightweight reference to a grouping issue (`models::ParentIssue`). -/
structure ParentIssue where
  number : Nat
  title : String
  url : String
deriving DecidableEq, Repr

/-- Canonical accepted work item (`models::Issue`). -/
structure Issue where
  number : Nat
  title : String
  url : String
  closed_at : Option Int
  parent : Option ParentIssue
  repository : String
deriving DecidableEq, Repr

/-- Fetch-run diagnostics (`github::FetchStats`); the observed-name hash sets
are embedded as duplicate-free lists. -/
structure FetchStats where
  total_items : Nat := 0
  archived : Nat := 0
  wrong_column : Nat := 0
  not_issue : Nat := 0
  filtered_by_time : Nat := 0
  filtered_by_iteration : Nat := 0
  columns_seen : List String := []
  iterations_seen : List String := []
deriving DecidableEq, Repr

/-- `HashSet::insert`: add the name unless it is already present. -/
def insert_seen (s : List String) (x : String) : List String :=
  if x ∈ s then s else s ++ [x]

/-- `HashSet::extend`: insert every element of the second set. -/
def extend_seen (s more : List String) : List String :=
  more.foldl insert_seen s

/-! ## Project lookups (`src/github.rs`, lines 163-273)

The network and JSON decoding are the environment; each lookup's handling
of an already-decoded response is embedded as a pure function. -/

/-- The `projectV2 { id }` payload of a lookup response. -/
structure ProjectIdNode where
  id : String
deriving DecidableEq, Repr

/-- The organization node of an org-lookup response. -/
structure OrgNode where
  project_v2 : Option ProjectIdNode
deriving DecidableEq, Repr

/-- The `data` payload of an org-lookup response. -/
structure OrgData where
  organization : Option OrgNode
deriving DecidableEq, Repr

/-- The user node of a user-lookup response. -/
structure UserNode where
  project_v2 : Option ProjectIdNode
deriving DecidableEq, Repr

/-- The `data` payload of a user-lookup response. -/
structure UserData where
  user : Option UserNode
deriving DecidableEq, Repr

/-- Embedding of `lookup_org_project` past `execute_query`: a present `errors`
array fails with the joined messages, then the nested optionals are peeled
with a distinct error at each level. -/
def lookup_org_project (number : Nat) (org : String) (r : GraphQLResponse OrgData) :
    Except String String :=
  match r.errors with
  | some errors =>
    Except.error ("GitHub API error: " ++ String.intercalate ", " (errors.map GraphQLError.message))
  | none =>
    match r.data with
    | some d =>
      match d.organization with
      | some org_data =>
        match org_data.project_v2 with
        | some project => Except.ok project.id
        | none =>
          Except.error ("Project #" ++ toString number ++ " not found in organization \x27" ++ org
            ++ "\x27. Check the project number and your token permissions (needs \x27read:project\x27 scope).")
      | none =>
        Except.error ("Organization \x27" ++ org
          ++ "\x27 not found or not accessible. Check the org name and your token permissions.")
    | none => Except.error "Organization project not found"

/-- Embedding of `lookup_user_project` past `execute_query`: the `errors` array
is never consulted; any missing level falls through to one generic error. -/
def lookup_user_project (r : GraphQLResponse UserData) : Except String String :=
  match r.data with
  | some d =>
    match d.user with
    | some user =>
      match user.project_v2 with
      | some project => Except.ok project.id
      | none =>
        Except.error "Project not found. Check that the owner and project number are correct."
    | none =>
      Except.error "Project not found. Check that the owner and project number are correct."
  | none =>
    Except.error "Project not found. Check that the owner and project number are correct."

/-! ## Page classification (`src/github.rs`, lines 354-514)

`fetch_project_items_page` past `execute_query` and JSON decoding: the
GraphQL error check, the project-node check, and the per-item
classification loop. -/

/-- The item's resolved status-column name
(`item.field_value_by_name.as_ref().and_then(|fv| fv.name())`). -/
def item_column (item : ProjectItem) : Option String :=
  item.field_value_by_name.bind FieldValue.name

/-- The item's iteration title. -/
def item_iteration (item : ProjectItem) : Option String :=
  item.iteration.bind IterationValue.title

/-- The item's iteration start date. -/
def item_iteration_start (item : ProjectItem) : Option String :=
  item.iteration.bind IterationValue.start_date

/-- The name recorded into `columns_seen` for this item. -/
def col_display (item : ProjectItem) : String :=
  match item_column item with
  | some col => col
  | none => "<no status>"

/-- The name recorded into `iterations_seen` for this item. -/
def iter_display (item : ProjectItem) : String :=
  match item_iteration item with
  | some iter => iter
  | none => "<no iteration>"

/-- Conversion of an accepted item's content into the canonical `Issue`. -/
def issue_of_content (content : IssueContent) : Issue :=
  { number := content.number
    title := content.title
    url := content.url
    closed_at := content.closed_at
    repository := content.repository.name_with_owner
    parent := content.parent.map
      (fun p => { number := p.number, title := p.title, url := p.url }) }

/-- Final stage of the classification chain: the content must be issue-typed,
anything else counts as `not_issue`. -/
def content_step (item : ProjectItem) (issues : List Issue) (stats : FetchStats) :
    List Issue × FetchStats :=
  match item.content with
  | some (ItemContent.issue content) => (issues ++ [issue_of_content content], stats)
  | _ => (issues, { stats with not_issue := stats.not_issue + 1 })

/-- One round of the classification loop of `fetch_project_items_page`, in the
source's order: archived, column match (after recording the observed column),
iteration filter (after recording the observed iteration), content type. -/
def classify_step (today : Int) (column_name : String) (iteration_filter : Option String)
    (collect_stats : Bool) (acc : List Issue × FetchStats) (item : ProjectItem) :
    List Issue × FetchStats :=
  if item.is_archived then
    (acc.1, { acc.2 with archived := acc.2.archived + 1 })
  else
    let stats1 :=
      if collect_stats then
        { acc.2 with columns_seen := insert_seen acc.2.columns_seen (col_display item) }
      else acc.2
    if item_column item ≠ some column_name then
      (acc.1, { stats1 with wrong_column := stats1.wrong_column + 1 })
    else
      let stats2 :=
        if collect_stats then
          { stats1 with iterations_seen := insert_seen stats1.iterations_seen (iter_display item) }
        else stats1
      match iteration_filter with
      | some filter =>
        if matches_iteration_filter today (item_iteration item) (item_iteration_start item) filter then
          content_step item acc.1 stats2
        else
          (acc.1, { stats2 with filtered_by_iteration := stats2.filtered_by_iteration + 1 })
      | none => content_step item acc.1 stats2

/-- Embedding of `fetch_project_items_page` on an already-decoded response:
fail on a present `errors` array, fail when no project node is present,
otherwise classify every item of the page. -/
def fetch_project_items_page (today : Int) (column_name : String)
    (iteration_filter : Option String) (collect_stats : Bool)
    (resp : GraphQLResponse ProjectData) :
    Except String (List Issue × PageInfo × FetchStats) :=
  match resp.errors with
  | some errors =>
    Except.error ("GraphQL errors: " ++ String.intercalate ", " (errors.map GraphQLError.message))
  | none =>
    match resp.data.bind ProjectData.node with
    | none => Except.error "Project not found. Make sure the project ID is correct."
    | some project =>
      let init : FetchStats := { total_items := project.items.nodes.length }
      let r := project.items.nodes.foldl
        (classify_step today column_name iteration_filter collect_stats) ([], init)
      Except.ok (r.1, project.items.page_info, r.2)

/-! ## The pagination loop (`src/github.rs`, lines 303-352)

The network is the environment: a finite list of decoded page responses
stands for the server, answering the requests in order.  The embedding
additionally records the cursor passed with each page request. -/

/-- Merge of one page's stats into the running stats (loop lines 320-326);
`filtered_by_time` is not merged, it is incremented by the time filter below. -/
def merge_page_stats (stats page_stats : FetchStats) : FetchStats :=
  { stats with
    total_items := stats.total_items + page_stats.total_items
    archived := stats.archived + page_stats.archived
    wrong_column := stats.wrong_column + page_stats.wrong_column
    not_issue := stats.not_issue + page_stats.not_issue
    filtered_by_iteration := stats.filtered_by_iteration + page_stats.filtered_by_iteration
    columns_seen := extend_seen stats.columns_seen page_stats.columns_seen
    iterations_seen := extend_seen stats.iterations_seen page_stats.iterations_seen }

/-- One round of the per-issue time filter (loop lines 328-343): with a cutoff,
an issue with no closed timestamp or one closed before the cutoff is dropped
and counted; otherwise the issue is appended. -/
def time_step (since : Option Int) (acc : List Issue × FetchStats) (issue : Issue) :
    List Issue × FetchStats :=
  match since with
  | some since_time =>
    match issue.closed_at with
    | some closed_at =>
      if closed_at < since_time then
        (acc.1, { acc.2 with filtered_by_time := acc.2.filtered_by_time + 1 })
      else
        (acc.1 ++ [issue], acc.2)
    | none => (acc.1, { acc.2 with filtered_by_time := acc.2.filtered_by_time + 1 })
  | none => (acc.1 ++ [issue], acc.2)

/-- The pagination loop of `fetch_project_issues`: classify the next page
response, merge its stats, time-filter its issues, then follow `end_cursor`
while `has_next_page` holds.  `requests` records the cursor passed with each
page request.  An exhausted response list while the loop still wants a next
page is a modelling artifact (the real loop would issue one more request the
finite synthetic server cannot answer). -/
def fetch_go (today : Int) (column_name : String) (since : Option Int)
    (iteration_filter : Option String) (collect_stats : Bool) :
    Option String → List (GraphQLResponse ProjectData) → List Issue → FetchStats →
    List (Option String) → Except String (List Issue × FetchStats × List (Option String))
  | _, [], _, _, _ => Except.error "no further page response available"
  | cursor, resp :: rest, all_issues, stats, requests =>
    match fetch_project_items_page today column_name iteration_filter collect_stats resp with
    | Except.error e => Except.error e
    | Except.ok (issues, page_info, page_stats) =>
      let stats1 := merge_page_stats stats page_stats
      let r := issues.foldl (time_step since) (all_issues, stats1)
      let requests1 := requests ++ [cursor]
      if page_info.has_next_page then
        fetch_go today column_name since iteration_filter collect_stats
          page_info.end_cursor rest r.1 r.2 requests1
      else
        Except.ok (r.1, r.2, requests1)

/-- Embedding of `fetch_project_issues`: run the pagination loop from a `None`
cursor, empty accumulator and default stats. -/
def fetch_project_issues (today : Int) (column_name : String) (since : Option Int)
    (iteration_filter : Option String) (collect_stats : Bool)
    (pages : List (GraphQLResponse ProjectData)) :
    Except String (List Issue × FetchStats × List (Option String)) :=
  fetch_go today column_name since iteration_filter collect_stats none pages [] {} []

/-- What it means for a board item to be accepted by the classification
pipeline as a given issue: not archived, exact column match, iteration filter
satisfied when present, and issue-typed content converting to the issue. -/
def accepts_item (today : Int) (column_name : String) (iteration_filter : Option String)
    (item : ProjectItem) (issue : Issue) : Prop :=
  item.is_archived = false ∧
  item_column item = some column_name ∧
  (∀ f, iteration_filter = some f →
    matches_iteration_filter today (item_iteration item) (item_iteration_start item) f = true) ∧
  ∃ content, item.content = some (ItemContent.issue content) ∧ issue = issue_of_content content

/-- A stats record with the two observed-name sets emptied (what a run with
diagnostics disabled records). -/
def erase_sets (s : FetchStats) : FetchStats :=
  { s with columns_seen := [], iterations_seen := [] }

/-- The six numeric counters of a stats record, as one tuple. -/
def counters (s : FetchStats) : Nat × Nat × Nat × Nat × Nat × Nat :=
  (s.total_items, s.archived, s.wrong_column, s.not_issue, s.filtered_by_time,
    s.filtered_by_iteration)

/-! ## Time filter parsing (`src/time_filter.rs`)

Instants are `Int` seconds.  The wall clock and the local time zone are
the environment: `Clock` carries `Utc::now()`, the civil date of
`Local::now().date_naive()` and the local UTC offset.  With a fixed
offset, `Local.from_local_datetime(..).single()` always yields exactly
one instant, so the keyword branches never fail in this model. -/

/-- The clock environment of `parse_time_filter`. -/
structure Clock where
  now : Int
  local_year : Int
  local_month : Int
  local_day : Int
  offset : Int
deriving DecidableEq, Repr

/-- Day number of the current local civil date. -/
def local_day_number (clock : Clock) : Int :=
  days_from_civil clock.local_year clock.local_month clock.local_day

/-- `Weekday::num_days_from_monday` of the current local date
(1970-01-01 was a Thursday, three days past a Monday). -/
def days_since_monday (clock : Clock) : Int :=
  Int.emod (local_day_number clock + 3) 7

/-- The instant of local midnight of the given day number
(`from_local_datetime(..).with_timezone(&Utc)`). -/
def local_midnight_utc (clock : Clock) (day : Int) : Int :=
  day * 86400 - clock.offset

/-- Outcome of `parse_duration`: no duration recognized, the
`chrono::Duration` constructor panicked on an out-of-bounds value, or a
duration of this many seconds. -/
inductive DurationResult where
  | missed
  | panicked
  | dur (seconds : Int)
deriving DecidableEq, Repr

/-- Outcome of `parse_time_filter`: a cutoff instant, an error message, or a
process abort from an out-of-bounds `chrono::Duration`. -/
inductive TimeFilterResult where
  | ok (t : Int)
  | err (msg : String)
  | panicked
deriving DecidableEq, Repr

/-- The digits part of an `i64` parse: one or more decimal digits, the signed
value within the signed 64-bit range. -/
def parse_i64_digits (sign : Int) (ds : List Char) : Option Int :=
  if ds ≠ [] ∧ ds.all Char.isDigit = true then
    let v : Int := sign * digits_val ds
    if -(2 ^ 63) ≤ v ∧ v ≤ 2 ^ 63 - 1 then some v else none
  else none

/-- Embedding of `str::parse::<i64>`: an optional sign, then one or more
decimal digits, value within the signed 64-bit range. -/
def parse_i64_chars : List Char → Option Int
  | [] => Option.none
  | c :: rest =>
    if c = '+' then parse_i64_digits 1 rest
    else if c = '-' then parse_i64_digits (-1) rest
    else parse_i64_digits 1 (c :: rest)

/-- Split at the first alphabetic character
(`char_indices().find(|(_, c)| c.is_alphabetic())`); with none, the whole
input is the number part and the unit is empty. -/
def split_at_alpha : List Char → List Char × List Char
  | [] => ([], [])
  | c :: rest =>
    if c.isAlpha then ([], c :: rest)
    else
      let r := split_at_alpha rest
      (c :: r.1, r.2)

/-- The unit-suffix table of `parse_duration`, as (milliseconds, seconds) per
one unit. -/
def duration_unit (unit : String) : Option (Int × Int) :=
  if unit = "d" ∨ unit = "day" ∨ unit = "days" then some (86400000, 86400)
  else if unit = "h" ∨ unit = "hour" ∨ unit = "hours" then some (3600000, 3600)
  else if unit = "m" ∨ unit = "min" ∨ unit = "mins" ∨ unit = "minute" ∨ unit = "minutes" then
    some (60000, 60)
  else if unit = "w" ∨ unit = "week" ∨ unit = "weeks" then some (604800000, 604800)
  else none

/-- Embedding of `parse_duration`: split the trimmed input at the first
alphabetic character, parse the number as `i64`, look the unit up; the
`chrono::Duration` constructors abort the process when the duration
exceeds the signed 64-bit millisecond range. -/
def parse_duration (raw : String) : DurationResult :=
  let input := trim_chars raw.data
  if input = [] then DurationResult.missed
  else
    let split := split_at_alpha input
    match parse_i64_chars split.1 with
    | Option.none => DurationResult.missed
    | some num =>
      match duration_unit (String.mk split.2) with
      | Option.none => DurationResult.missed
      | some (ms, secs) =>
        if -(2 ^ 63) ≤ num * ms ∧ num * ms ≤ 2 ^ 63 - 1 then
          DurationResult.dur (num * secs)
        else DurationResult.panicked

/-- The normalization `input.trim().to_lowercase()` at the top of
`parse_time_filter` (lowercase model: ASCII). -/
def normalize_input (raw : String) : String :=
  String.mk ((trim_chars raw.data).map Char.toLower)

/-- The earliest instant `chrono` can represent: midnight of
`NaiveDate::MIN` (year `i32::MIN >> 13 = -262144`), in seconds. -/
def datetime_min_seconds : Int :=
  days_from_civil (-262144) 1 1 * 86400

/-- The latest whole second `chrono` can represent: the last second of
`NaiveDate::MAX` (year `i32::MAX >> 13 = 262143`). -/
def datetime_max_seconds : Int :=
  days_from_civil 262143 12 31 * 86400 + 86399

/-- Embedding of `parse_time_filter`: trim and lowercase, handle the four
keywords, then try the duration form, else fail naming the supported
formats. -/
def parse_time_filter (clock : Clock) (raw : String) : TimeFilterResult :=
  let input := normalize_input raw
  if input = "yesterday" then
    TimeFilterResult.ok (local_midnight_utc clock (local_day_number clock - 1))
  else if input = "today" then
    TimeFilterResult.ok (local_midnight_utc clock (local_day_number clock))
  else if input = "this-week" then
    TimeFilterResult.ok (local_midnight_utc clock (local_day_number clock - days_since_monday clock))
  else if input = "this-month" then
    TimeFilterResult.ok (local_midnight_utc clock (days_from_civil clock.local_year clock.local_month 1))
  else
    match parse_duration input with
    | DurationResult.dur seconds =>
      -- `Ok(now - duration)`: the `DateTime - Duration` subtraction panics
      -- when the result leaves the representable date range.
      if datetime_min_seconds ≤ clock.now - seconds
          ∧ clock.now - seconds ≤ datetime_max_seconds then
        TimeFilterResult.ok (clock.now - seconds)
      else TimeFilterResult.panicked
    | DurationResult.panicked => TimeFilterResult.panicked
    | DurationResult.missed =>
      TimeFilterResult.err ("Invalid time filter: \x27" ++ input
        ++ "\x27. Use formats like: 7d, 24h, 30m, yesterday, today, this-week, this-month")

/-! ## Derived views of a page response

Projections used to state properties of the fetch loop; each is the
evident reading of `fetch_project_items_page` on a well-formed response. -/

/-- The project node of a page response, when present. -/
def page_node (resp : GraphQLResponse ProjectData) : Option ProjectNode :=
  resp.data.bind ProjectData.node

/-- A page response the fetch loop consumes without failing: no `errors`
array and a present project node. -/
def good_page (resp : GraphQLResponse ProjectData) : Prop :=
  resp.errors = none ∧ (page_node resp).isSome = true

/-- The raw items of a page response. -/
def page_items (resp : GraphQLResponse ProjectData) : List ProjectItem :=
  match page_node resp with
  | some project => project.items.nodes
  | none => []

/-- The pagination state of a page response. -/
def page_info_of (resp : GraphQLResponse ProjectData) : PageInfo :=
  match page_node resp with
  | some project => project.items.page_info
  | none => { has_next_page := false, end_cursor := none }

/-- The issues a page's classification accepts (before the time filter). -/
def page_issues_of (today : Int) (column_name : String) (iteration_filter : Option String)
    (collect_stats : Bool) (resp : GraphQLResponse ProjectData) : List Issue :=
  ((page_items resp).foldl (classify_step today column_name iteration_filter collect_stats)
    ([], { total_items := (page_items resp).length })).1

/-- The stats a page's classification produces. -/
def page_stats_of (today : Int) (column_name : String) (iteration_filter : Option String)
    (collect_stats : Bool) (resp : GraphQLResponse ProjectData) : FetchStats :=
  ((page_items resp).foldl (classify_step today column_name iteration_filter collect_stats)
    ([], { total_items := (page_items resp).length })).2

/-- Whether an issue passes the elapsed-time cutoff. -/
def time_pass (since : Option Int) (issue : Issue) : Bool :=
  match since with
  | none => true
  | some since_time =>
    match issue.closed_at with
    | some closed_at => decide (¬ closed_at < since_time)
    | none => false

/-- The issues of a page that survive the time filter, in order. -/
def time_kept (since : Option Int) (issues : List Issue) : List Issue :=
  issues.filter (time_pass since)

/-- How many issues of a page the time filter drops. -/
def time_count (since : Option Int) (issues : List Issue) : Nat :=
  (issues.filter (fun issue => ! time_pass since issue)).length

/-- The issues of one page that the whole fetch returns. -/
def accepted_of (today : Int) (column_name : String) (since : Option Int)
    (iteration_filter : Option String) (collect_stats : Bool)
    (resp : GraphQLResponse ProjectData) : List Issue :=
  time_kept since (page_issues_of today column_name iteration_filter collect_stats resp)

/-- The stats update one loop round contributes: the page's classification
stats merged in, plus the page's time-filtered count. -/
def merge_after_time (today : Int) (column_name : String) (since : Option Int)
    (iteration_filter : Option String) (collect_stats : Bool)
    (stats : FetchStats) (resp : GraphQLResponse ProjectData) : FetchStats :=
  let m := merge_page_stats stats
    (page_stats_of today column_name iteration_filter collect_stats resp)
  { m with filtered_by_time := m.filtered_by_time
      + time_count since (page_issues_of today column_name iteration_filter collect_stats resp) }

/-! ## Concrete fixtures

A small synthetic board used to exercise the model on closed inputs: one
issue-typed item in column `Done`, and one intermediate page that reports a
next page. -/

/-- A concrete issue payload. -/
def sample_content : IssueContent :=
  { number := 1, title := "Fix bug", url := "https://example/1", closed_at := some 5,
    repository := { name_with_owner := "acme/app" }, parent := none }

/-- A concrete non-archived issue-typed item in column `Done`. -/
def sample_item : ProjectItem :=
  { id := "item1", is_archived := false,
    field_value_by_name := some (FieldValue.singleSelectValue (some "Done")),
    iteration := none, content := some (ItemContent.issue sample_content) }

/-- The items connection of the final sample page. -/
def sample_connection : ItemConnection :=
  { nodes := [sample_item], page_info := { has_next_page := false, end_cursor := none } }

/-- A concrete final page holding `sample_item`. -/
def sample_page : GraphQLResponse ProjectData :=
  { data := some { node := some { items := sample_connection } }, errors := none }

/-- The items connection of the intermediate sample page. -/
def sample_connection_more : ItemConnection :=
  { nodes := [], page_info := { has_next_page := true, end_cursor := some "c1" } }

/-- A concrete empty intermediate page that reports a next page. -/
def sample_page_more : GraphQLResponse ProjectData :=
  { data := some { node := some { items := sample_connection_more } }, errors := none }

/-- Decidable equality of fallible results, for evaluating the model on
concrete inputs. -/
instance {ε α : Type} [DecidableEq ε] [DecidableEq α] : DecidableEq (Except ε α) := fun a b =>
  match a, b with
  | Except.error e, Except.error e' =>
    if h : e = e' then Decidable.isTrue (by rw [h])
    else Decidable.isFalse (fun hc => h (by injection hc))
  | Except.error _, Except.ok _ => Decidable.isFalse (fun hc => Except.noConfusion hc)
  | Except.ok _, Except.error _ => Decidable.isFalse (fun hc => Except.noConfusion hc)
  | Except.ok v, Except.ok v' =>
    if h : v = v' then Decidable.isTrue (by rw [h])
    else Decidable.isFalse (fun hc => h (by injection hc))

/-- Well-formedness of a page response is decidable. -/
instance (resp : GraphQLResponse ProjectData) : Decidable (good_page resp) :=
  decidable_of_iff (resp.errors = none ∧ (page_node resp).isSome = true) Iff.rfl

/-- The canonical issue of `sample_item`. -/
def sample_issue : Issue := issue_of_content sample_content

/-! ## Helper lemmas -/

/-- No token matches an item that has no iteration title and no start date. -/
theorem token_matches_no_iteration (today : Int) (t : String) :
    token_matches today none none t = false := by
  unfold token_matches
  split_ifs with h1 h2
  · rfl
  · rfl
  · rfl

/-- A list-level reading of `List.any _ = false`. -/
theorem any_eq_false_of_forall {α : Type} (l : List α) (p : α → Bool)
    (h : ∀ x ∈ l, p x = false) : l.any p = false := by
  induction l with
  | nil => rfl
  | cons a l ih =>
    simp only [List.any_cons, Bool.or_eq_false_iff]
    exact ⟨h a (List.mem_cons_self a l), ih fun x hx => h x (List.mem_cons_of_mem a hx)⟩

/-- On an item with no iteration, any filter other than the whole-string
`@all` fails to match. -/
theorem matches_none_iteration_eq_false (today : Int) (filter : String)
    (hne : filter ≠ "@all") :
    matches_iteration_filter today none none filter = false := by
  unfold matches_iteration_filter
  rw [if_neg hne]
  by_cases hs : str_starts_with filter "@" = true
  · simp [hs]
  · simp only [Bool.not_eq_true] at hs
    simp only [hs, Option.isNone_none, Bool.false_and, Bool.false_eq_true, if_false]
    exact any_eq_false_of_forall _ _ fun t _ => token_matches_no_iteration today t

/-- The whole filter is `@all` exactly when its token list is `["@all"]`
splits to the single token `@all` (used to relate the two phrasings). -/
theorem tokens_of_all : tokens_of "@all" = ["@all"] := by decide

/-- A decimal digit is not alphabetic. -/
theorem digit_not_alpha (c : Char) (h : c.isDigit = true) : c.isAlpha = false := by
  simp only [Char.isDigit, Bool.and_eq_true, decide_eq_true_eq] at h
  have h' : 48 ≤ c.val.toNat ∧ c.val.toNat ≤ 57 := h
  have hupper : ¬ c.val ≥ 65 := fun hc =>
    absurd (show (65 : Nat) ≤ c.val.toNat from hc) (by omega)
  have hlower : ¬ c.val ≥ 97 := fun hc =>
    absurd (show (97 : Nat) ≤ c.val.toNat from hc) (by omega)
  simp [Char.isAlpha, Char.isUpper, Char.isLower, decide_eq_false hupper,
    decide_eq_false hlower]

/-- A decimal digit is not whitespace. -/
theorem digit_not_ws (c : Char) (h : c.isDigit = true) : c.isWhitespace = false := by
  have w1 : ¬ c = ' ' := fun e => by rw [e] at h; exact absurd h (by decide)
  have w2 : ¬ c = '\t' := fun e => by rw [e] at h; exact absurd h (by decide)
  have w3 : ¬ c = '\r' := fun e => by rw [e] at h; exact absurd h (by decide)
  have w4 : ¬ c = '\n' := fun e => by rw [e] at h; exact absurd h (by decide)
  simp [Char.isWhitespace, decide_eq_false w1, decide_eq_false w2, decide_eq_false w3,
    decide_eq_false w4]

/-- A successful digits parse means a nonempty all-digit list. -/
theorem parse_i64_digits_all (sign : Int) (ds : List Char) (n : Int)
    (h : parse_i64_digits sign ds = some n) : ds ≠ [] ∧ ds.all Char.isDigit = true := by
  by_cases hc : ds ≠ [] ∧ ds.all Char.isDigit = true
  · exact hc
  · rw [parse_i64_digits, if_neg hc] at h
    exact Option.noConfusion h

/-- The first character of a successful `i64` parse is a sign or a digit. -/
theorem parse_i64_chars_head (c : Char) (cs : List Char) (n : Int)
    (h : parse_i64_chars (c :: cs) = some n) : c = '+' ∨ c = '-' ∨ c.isDigit = true := by
  by_cases h1 : c = '+'
  · exact Or.inl h1
  by_cases h2 : c = '-'
  · exact Or.inr (Or.inl h2)
  refine Or.inr (Or.inr ?_)
  simp only [parse_i64_chars, if_neg h1, if_neg h2] at h
  have hall := (parse_i64_digits_all _ _ _ h).2
  simp only [List.all_cons, Bool.and_eq_true] at hall
  exact hall.1

/-- The input of a successful `i64` parse is nonempty and contains neither
alphabetic nor whitespace characters. -/
theorem parse_i64_chars_props (cs : List Char) (n : Int) (h : parse_i64_chars cs = some n) :
    cs ≠ [] ∧ (∀ c ∈ cs, c.isAlpha = false) ∧ (∀ c ∈ cs, c.isWhitespace = false) := by
  cases cs with
  | nil => simp [parse_i64_chars] at h
  | cons a l =>
    refine ⟨by simp, ?_⟩
    have step : ∀ (sign : Int) (ds : List Char), parse_i64_digits sign ds = some n →
        (∀ c ∈ ds, c.isAlpha = false) ∧ (∀ c ∈ ds, c.isWhitespace = false) := by
      intro sign ds hds
      have hall := (parse_i64_digits_all _ _ _ hds).2
      rw [List.all_eq_true] at hall
      exact ⟨fun c hc => digit_not_alpha c (hall c hc),
        fun c hc => digit_not_ws c (hall c hc)⟩
    by_cases h1 : a = '+'
    · subst h1
      simp only [parse_i64_chars, if_pos rfl] at h
      have hl := step 1 l h
      constructor <;> · intro c hc
                        rcases List.mem_cons.mp hc with e | hm
                        · subst e; decide
                        · first
                          | exact hl.1 c hm
                          | exact hl.2 c hm
    · by_cases h2 : a = '-'
      · subst h2
        simp only [parse_i64_chars, if_neg h1, if_pos rfl] at h
        have hl := step (-1) l h
        constructor <;> · intro c hc
                          rcases List.mem_cons.mp hc with e | hm
                          · subst e; decide
                          · first
                            | exact hl.1 c hm
                            | exact hl.2 c hm
      · simp only [parse_i64_chars, if_neg h1, if_neg h2] at h
        exact step 1 (a :: l) h

/-- `dropWhile` is the identity when no element satisfies the predicate. -/
theorem dropWhile_eq_self_of (p : Char → Bool) (cs : List Char)
    (h : ∀ c ∈ cs, p c = false) : cs.dropWhile p = cs := by
  cases cs with
  | nil => rfl
  | cons a l =>
    rw [List.dropWhile_cons, h a (List.mem_cons_self a l)]
    simp

/-- Trimming a string with no whitespace leaves it unchanged. -/
theorem trim_chars_eq_self (cs : List Char) (h : ∀ c ∈ cs, c.isWhitespace = false) :
    trim_chars cs = cs := by
  unfold trim_chars
  rw [dropWhile_eq_self_of _ _ h]
  rw [dropWhile_eq_self_of _ _ (fun c hc => h c (List.mem_reverse.mp hc))]
  exact List.reverse_reverse cs

/-- `split_at_alpha` splits a non-alphabetic prefix from an alphabetic-headed
suffix. -/
theorem split_at_alpha_append (nc uc : List Char) (hn : ∀ c ∈ nc, c.isAlpha = false)
    (hu : ∀ u rest, uc = u :: rest → u.isAlpha = true) :
    split_at_alpha (nc ++ uc) = (nc, uc) := by
  induction nc with
  | nil =>
    rw [List.nil_append]
    cases uc with
    | nil => rfl
    | cons u rest => simp [split_at_alpha, hu u rest rfl]
  | cons c nc' ih =>
    have hc : c.isAlpha = false := hn c (List.mem_cons_self c nc')
    rw [List.cons_append]
    simp only [split_at_alpha, hc, Bool.false_eq_true, if_false]
    rw [ih (fun x hx => hn x (List.mem_cons_of_mem c hx))]

/-- A recognized unit suffix is a nonempty all-letter, whitespace-free string. -/
theorem duration_unit_chars (uc : List Char) (p : Int × Int)
    (h : duration_unit (String.mk uc) = some p) :
    (∀ u rest, uc = u :: rest → u.isAlpha = true) ∧ (∀ c ∈ uc, c.isWhitespace = false) := by
  unfold duration_unit at h
  split_ifs at h with h1 h2 h3 h4
  · rcases h1 with e | e | e <;>
    · replace e : uc = _ := congrArg String.data e
      subst e
      exact ⟨fun u rest hu => by injection hu with h1 h2; subst h1; decide, by decide⟩
  · rcases h2 with e | e | e <;>
    · replace e : uc = _ := congrArg String.data e
      subst e
      exact ⟨fun u rest hu => by injection hu with h1 h2; subst h1; decide, by decide⟩
  · rcases h3 with e | e | e | e | e <;>
    · replace e : uc = _ := congrArg String.data e
      subst e
      exact ⟨fun u rest hu => by injection hu with h1 h2; subst h1; decide, by decide⟩
  · rcases h4 with e | e | e <;>
    · replace e : uc = _ := congrArg String.data e
      subst e
      exact ⟨fun u rest hu => by injection hu with h1 h2; subst h1; decide, by decide⟩

/-- A string made of a parsed number followed by anything cannot equal a
keyword that starts with a plain letter. -/
theorem mk_append_ne_keyword (nc uc : List Char) (n : Int)
    (hnum : parse_i64_chars nc = some n) (kw : String) (k : Char) (krest : List Char)
    (hkw : kw.data = k :: krest) (hk : ¬ k = '+' ∧ ¬ k = '-' ∧ k.isDigit = false) :
    ¬ String.mk (nc ++ uc) = kw := by
  intro e
  have hdata : nc ++ uc = k :: krest := by
    rw [← hkw]
    exact congrArg String.data e
  cases nc with
  | nil => exact (parse_i64_chars_props [] n hnum).1 rfl
  | cons c nc' =>
    rw [List.cons_append] at hdata
    have hck : c = k := by injection hdata with h1 _
    subst hck
    rcases parse_i64_chars_head c nc' n hnum with h | h | h
    · exact hk.1 h
    · exact hk.2.1 h
    · have hd := hk.2.2
      rw [h] at hd
      exact Bool.noConfusion hd

/-! ## C4 -/

/-- C4 counterexample: the second segment `0` is not a positive integer, yet
`resolve_project_id` does not fail locally — it proceeds to the graph-API
lookup with number 0. -/
theorem c4_zero_proceeds_to_lookup :
    resolve_project_id "acme/0" = ResolveStep.lookup "acme" 0 := by decide

/-- C4 (amended): for an input without the node-id prefix, if the string does
not split into exactly two slash-separated segments, or its second segment
does not parse as an unsigned 32-bit integer (so `0` and `+`-prefixed
numbers are accepted), resolution fails with a descriptive error before any
graph-API call. -/
theorem c4_bad_shape_fails_locally (s : String) (hpvt : str_starts_with s "PVT_" = false)
    (h : (split_on_char '/' s.data).length ≠ 2 ∨
      ∀ owner number_str, split_on_char '/' s.data = [owner, number_str] →
        parse_u32 (String.mk number_str) = none) :
    ∃ msg, resolve_project_id s = ResolveStep.failed msg := by
  unfold resolve_project_id
  rw [hpvt]
  simp only [Bool.false_eq_true, if_false]
  rcases hsplit : split_on_char '/' s.data with _ | ⟨a, _ | ⟨b, _ | ⟨c, rest⟩⟩⟩
  · exact ⟨_, rfl⟩
  · exact ⟨_, rfl⟩
  · rcases h with h | h
    · rw [hsplit] at h
      exact absurd rfl h
    · have hb := h a b hsplit
      exact ⟨"Project number must be a positive integer", by simp only [hb]⟩
  · exact ⟨_, rfl⟩

/-- C4 witness: a one-segment input fails locally. -/
theorem c4_bad_shape_fails_locally_witness :
    str_starts_with "justoneword" "PVT_" = false ∧
      ∃ msg, resolve_project_id "justoneword" = ResolveStep.failed msg :=
  ⟨by decide, c4_bad_shape_fails_locally "justoneword" (by decide) (Or.inl (by decide))⟩

/-! ## C6 -/

/-- C6: with a parseable start date, the `@current` token matches exactly when
today lies in the half-open window of `sprint_length` days from the start,
`sprint_length` is the fixed constant 14, and an absent or unparseable start
date never matches `@current`. -/
theorem c6_current_window (today : Int) (s : String) (d : Int) :
    (parse_naive_date s = some d →
      (is_current_iteration today (some s) = true ↔ d ≤ today ∧ today < d + sprint_length)) ∧
    sprint_length = 14 ∧
    is_current_iteration today none = false ∧
    (parse_naive_date s = none → is_current_iteration today (some s) = false) ∧
    (∀ title : String, matches_iteration_filter today (some title) (some s) "@current" =
      is_current_iteration today (some s)) := by
  refine ⟨fun h => ?_, rfl, rfl, fun h => ?_, fun title => ?_⟩
  · simp [is_current_iteration, h]
  · simp [is_current_iteration, h]
  · unfold matches_iteration_filter
    rw [if_neg (by decide : ¬ ("@current" : String) = "@all")]
    rw [show (str_starts_with "@current" "@" && (some title : Option String).isNone) = false by simp]
    simp only [Bool.false_eq_true, if_false]
    rw [show tokens_of "@current" = ["@current"] from by decide]
    simp [token_matches]

/-- C6 witness: today 2024-01-10 lies inside the sprint starting 2024-01-01. -/
theorem c6_current_window_witness :
    parse_naive_date "2024-01-01" = some (days_from_civil 2024 1 1) ∧
      (is_current_iteration (days_from_civil 2024 1 10) (some "2024-01-01") = true ↔
        days_from_civil 2024 1 1 ≤ days_from_civil 2024 1 10 ∧
        days_from_civil 2024 1 10 < days_from_civil 2024 1 1 + sprint_length) :=
  ⟨by decide,
    (c6_current_window (days_from_civil 2024 1 10) "2024-01-01" (days_from_civil 2024 1 1)).1
      (by decide)⟩

/-! ## C7 -/

/-- C7 counterexample: the filter `@all` consists of a single token beginning
with `@`, yet it matches an item with no iteration, so a filter whose tokens
all begin with `@` can match such an item. -/
theorem c7_all_filter_matches_no_iteration :
    tokens_of "@all" = ["@all"] ∧
    str_starts_with "@all" "@" = true ∧
    matches_iteration_filter 0 none none "@all" = true := by decide

/-- C7 (amended): on an item with no iteration, every individual token fails
to match, and any filter expression other than the exact string `@all` whose
tokens all begin with `@` returns no-match. -/
theorem c7_no_iteration_no_match (today : Int) (filter : String)
    (_htok : ∀ t ∈ tokens_of filter, str_starts_with t "@" = true) :
    (∀ t ∈ tokens_of filter, token_matches today none none t = false) ∧
    (filter ≠ "@all" → matches_iteration_filter today none none filter = false) :=
  ⟨fun t _ => token_matches_no_iteration today t,
    fun hne => matches_none_iteration_eq_false today filter hne⟩

/-- C7 witness: the filter `@current,@previous` never matches an item with no
iteration. -/
theorem c7_no_iteration_no_match_witness :
    token_matches 0 none none "@current" = false ∧
    matches_iteration_filter 0 none none "@current,@previous" = false :=
  ⟨(c7_no_iteration_no_match 0 "@current,@previous" (by decide)).1 "@current" (by decide),
    (c7_no_iteration_no_match 0 "@current,@previous" (by decide)).2 (by decide)⟩

/-! ## C10 -/

/-- C10: when `@all` appears as one token among several, it is evaluated as an
exact title match against the literal string `@all` — an item titled `@all`
matches, and an item with no iteration does not, so such a filter does not
match every item. -/
theorem c10_all_not_special_inside_list (today : Int) (filter : String)
    (hmem : "@all" ∈ tokens_of filter) (hlen : 2 ≤ (tokens_of filter).length) :
    matches_iteration_filter today (some "@all") none filter = true ∧
    matches_iteration_filter today none none filter = false := by
  have hne : filter ≠ "@all" := by
    intro h
    rw [h, tokens_of_all] at hlen
    exact absurd hlen (by decide)
  constructor
  · unfold matches_iteration_filter
    rw [if_neg hne]
    rw [if_neg (by simp)]
    rw [List.any_eq_true]
    refine ⟨"@all", hmem, ?_⟩
    unfold token_matches
    rw [if_neg (by decide), if_neg (by decide)]
    decide
  · exact matches_none_iteration_eq_false today filter hne

/-- C10 witness: the filter `@all,@current` matches an item titled `@all` but
not an item with no iteration. -/
theorem c10_all_not_special_inside_list_witness :
    matches_iteration_filter 0 (some "@all") none "@all,@current" = true ∧
    matches_iteration_filter 0 none none "@all,@current" = false :=
  c10_all_not_special_inside_list 0 "@all,@current" (by decide) (by decide)

/-! ## Classification step lemmas -/

/-- One classification round classifies exactly one item: exactly one of the
four rejection counters or the issue list grows by one, and neither
`total_items` nor `filtered_by_time` moves. -/
theorem classify_step_counters (today : Int) (col : String) (filt : Option String)
    (collect : Bool) (acc : List Issue × FetchStats) (item : ProjectItem) :
    (classify_step today col filt collect acc item).2.archived
      + (classify_step today col filt collect acc item).2.wrong_column
      + (classify_step today col filt collect acc item).2.filtered_by_iteration
      + (classify_step today col filt collect acc item).2.not_issue
      + (classify_step today col filt collect acc item).1.length
      = acc.2.archived + acc.2.wrong_column + acc.2.filtered_by_iteration + acc.2.not_issue
        + acc.1.length + 1
    ∧ (classify_step today col filt collect acc item).2.total_items = acc.2.total_items
    ∧ (classify_step today col filt collect acc item).2.filtered_by_time
        = acc.2.filtered_by_time := by
  rcases acc with ⟨is0, s0⟩
  unfold classify_step content_step
  by_cases h1 : item.is_archived = true
  · simp [h1]
    omega
  · cases collect <;>
    · by_cases h2 : item_column item = some col
      · rcases filt with _ | f
        · rcases hct : item.content with _ | x
          · simp [h1, h2, hct]
            omega
          · rcases x with c | _ <;>
            · simp [h1, h2, hct]
              omega
        · by_cases hm : matches_iteration_filter today (item_iteration item)
              (item_iteration_start item) f = true
          · rcases hct : item.content with _ | x
            · simp [h1, h2, hm, hct]
              omega
            · rcases x with c | _ <;>
              · simp [h1, h2, hm, hct]
                omega
          · simp [h1, h2, hm]
            omega
      · simp [h1, h2]
        omega

/-- One classification round leaves the issue list unchanged or appends the
accepted issue of this item. -/
theorem classify_step_issues (today : Int) (col : String) (filt : Option String)
    (collect : Bool) (acc : List Issue × FetchStats) (item : ProjectItem) :
    (classify_step today col filt collect acc item).1 = acc.1 ∨
    ∃ issue, accepts_item today col filt item issue ∧
      (classify_step today col filt collect acc item).1 = acc.1 ++ [issue] := by
  rcases acc with ⟨is0, s0⟩
  unfold classify_step content_step
  by_cases h1 : item.is_archived = true
  · left
    simp [h1]
  · cases collect <;>
    · by_cases h2 : item_column item = some col
      · have harch : item.is_archived = false := by
          simpa using h1
        rcases filt with _ | f
        · rcases hct : item.content with _ | x
          · left
            simp [h1, h2, hct]
          · rcases x with c | _
            · right
              refine ⟨issue_of_content c, ⟨harch, h2, by simp, c, hct, rfl⟩, ?_⟩
              simp [h1, h2, hct]
            · left
              simp [h1, h2, hct]
        · by_cases hm : matches_iteration_filter today (item_iteration item)
              (item_iteration_start item) f = true
          · rcases hct : item.content with _ | x
            · left
              simp [h1, h2, hm, hct]
            · rcases x with c | _
              · right
                refine ⟨issue_of_content c,
                  ⟨harch, h2, fun g hg => by injection hg with e; rw [← e]; exact hm, c, hct, rfl⟩,
                  ?_⟩
                simp [h1, h2, hm, hct]
              · left
                simp [h1, h2, hm, hct]
          · left
            simp [h1, h2, hm]
      · left
        simp [h1, h2]

/-- The issue output and the counters of one classification round do not
depend on the incoming observed-name sets. -/
theorem classify_step_ext (today : Int) (col : String) (filt : Option String) (collect : Bool)
    (is0 : List Issue) (s0 s0' : FetchStats) (item : ProjectItem)
    (h : counters s0 = counters s0') :
    (classify_step today col filt collect (is0, s0) item).1
      = (classify_step today col filt collect (is0, s0') item).1 ∧
    counters (classify_step today col filt collect (is0, s0) item).2
      = counters (classify_step today col filt collect (is0, s0') item).2 := by
  simp only [counters, Prod.mk.injEq] at h
  obtain ⟨e1, e2, e3, e4, e5, e6⟩ := h
  unfold classify_step content_step
  by_cases h1 : item.is_archived = true
  · simp [counters, h1, e1, e2, e3, e4, e5, e6]
  · cases collect <;>
    · by_cases h2 : item_column item = some col
      · rcases filt with _ | f
        · rcases hct : item.content with _ | x
          · simp [counters, h1, h2, hct, e1, e2, e3, e4, e5, e6]
          · rcases x with c | _ <;>
            · simp [counters, h1, h2, hct, e1, e2, e3, e4, e5, e6]
        · by_cases hm : matches_iteration_filter today (item_iteration item)
              (item_iteration_start item) f = true
          · rcases hct : item.content with _ | x
            · simp [counters, h1, h2, hm, hct, e1, e2, e3, e4, e5, e6]
            · rcases x with c | _ <;>
              · simp [counters, h1, h2, hm, hct, e1, e2, e3, e4, e5, e6]
          · simp [counters, h1, h2, hm, e1, e2, e3, e4, e5, e6]
      · simp [counters, h1, h2, e1, e2, e3, e4, e5, e6]

/-- With diagnostics disabled, one classification round produces the same
issues and counters as with diagnostics enabled, with the observed-name sets
left exactly as they came in. -/
theorem classify_step_collect (today : Int) (col : String) (filt : Option String)
    (is0 : List Issue) (s0 : FetchStats) (item : ProjectItem) :
    classify_step today col filt false (is0, s0) item =
      ((classify_step today col filt true (is0, s0) item).1,
       { (classify_step today col filt true (is0, s0) item).2 with
         columns_seen := s0.columns_seen, iterations_seen := s0.iterations_seen }) := by
  unfold classify_step content_step
  by_cases h1 : item.is_archived = true
  · simp [h1]
  · by_cases h2 : item_column item = some col
    · rcases filt with _ | f
      · rcases hct : item.content with _ | x
        · simp [h1, h2, hct]
        · rcases x with c | _ <;>
          · simp [h1, h2, hct]
      · by_cases hm : matches_iteration_filter today (item_iteration item)
            (item_iteration_start item) f = true
        · rcases hct : item.content with _ | x
          · simp [h1, h2, hm, hct]
          · rcases x with c | _ <;>
            · simp [h1, h2, hm, hct]
        · simp [h1, h2, hm]
    · simp [h1, h2]

/-- With diagnostics enabled, one classification round records the observed
column only for non-archived items, and the observed iteration only for
non-archived items in the requested column. -/
theorem classify_step_sets (today : Int) (col : String) (filt : Option String)
    (acc : List Issue × FetchStats) (item : ProjectItem) :
    ((classify_step today col filt true acc item).2.columns_seen = acc.2.columns_seen ∨
      (item.is_archived = false ∧
        (classify_step today col filt true acc item).2.columns_seen
          = insert_seen acc.2.columns_seen (col_display item))) ∧
    ((classify_step today col filt true acc item).2.iterations_seen = acc.2.iterations_seen ∨
      (item.is_archived = false ∧ item_column item = some col ∧
        (classify_step today col filt true acc item).2.iterations_seen
          = insert_seen acc.2.iterations_seen (iter_display item))) := by
  rcases acc with ⟨is0, s0⟩
  unfold classify_step content_step
  by_cases h1 : item.is_archived = true
  · simp [h1]
  · have harch : item.is_archived = false := by simpa using h1
    by_cases h2 : item_column item = some col
    · rcases filt with _ | f
      · rcases hct : item.content with _ | x
        · simp [h1, h2, hct, harch]
        · rcases x with c | _ <;>
          · simp [h1, h2, hct, harch]
      · by_cases hm : matches_iteration_filter today (item_iteration item)
            (item_iteration_start item) f = true
        · rcases hct : item.content with _ | x
          · simp [h1, h2, hm, hct, harch]
          · rcases x with c | _ <;>
            · simp [h1, h2, hm, hct, harch]
        · simp [h1, h2, hm, harch]
    · simp [h1, h2, harch]

/-- Membership in an inserted observed-name set. -/
theorem mem_insert_seen_iff (s : List String) (y x : String) :
    x ∈ insert_seen s y ↔ x ∈ s ∨ x = y := by
  unfold insert_seen
  split_ifs with hy
  · constructor
    · exact Or.inl
    · rintro (h | rfl)
      · exact h
      · exact hy
  · simp [List.mem_append]

/-- Membership in an extended observed-name set. -/
theorem mem_extend_seen (more : List String) : ∀ (s : List String) (x : String),
    x ∈ extend_seen s more ↔ x ∈ s ∨ x ∈ more := by
  induction more with
  | nil => intro s x; simp [extend_seen]
  | cons m rest ih =>
    intro s x
    show x ∈ extend_seen (insert_seen s m) rest ↔ _
    rw [ih (insert_seen s m) x, mem_insert_seen_iff]
    simp [List.mem_cons]
    tauto

/-- The classification loop classifies every item of the page into exactly one
bucket: the four rejection counters plus the accepted issues account for all
items, while `total_items` and `filtered_by_time` are untouched. -/
theorem classify_fold_counters (today : Int) (col : String) (filt : Option String)
    (collect : Bool) (items : List ProjectItem) : ∀ (is0 : List Issue) (s0 : FetchStats),
    (items.foldl (classify_step today col filt collect) (is0, s0)).2.archived
      + (items.foldl (classify_step today col filt collect) (is0, s0)).2.wrong_column
      + (items.foldl (classify_step today col filt collect) (is0, s0)).2.filtered_by_iteration
      + (items.foldl (classify_step today col filt collect) (is0, s0)).2.not_issue
      + (items.foldl (classify_step today col filt collect) (is0, s0)).1.length
      = s0.archived + s0.wrong_column + s0.filtered_by_iteration + s0.not_issue
        + is0.length + items.length
    ∧ (items.foldl (classify_step today col filt collect) (is0, s0)).2.total_items
        = s0.total_items
    ∧ (items.foldl (classify_step today col filt collect) (is0, s0)).2.filtered_by_time
        = s0.filtered_by_time := by
  induction items with
  | nil =>
    intro is0 s0
    simp
  | cons item rest ih =>
    intro is0 s0
    rw [List.foldl_cons]
    have hstep := classify_step_counters today col filt collect (is0, s0) item
    rcases hs : classify_step today col filt collect (is0, s0) item with ⟨i1, s1⟩
    simp only [hs] at hstep ⊢
    obtain ⟨a1, a2, a3⟩ := ih i1 s1
    refine ⟨?_, a2.trans hstep.2.1, a3.trans hstep.2.2⟩
    rw [List.length_cons]
    omega

/-- Every issue the classification loop emits originates from an accepted item
of the page. -/
theorem classify_fold_sound (today : Int) (col : String) (filt : Option String)
    (collect : Bool) (items : List ProjectItem) :
    ∀ (is0 : List Issue) (s0 : FetchStats) (issue : Issue),
    issue ∈ (items.foldl (classify_step today col filt collect) (is0, s0)).1 →
    issue ∈ is0 ∨ ∃ item ∈ items, accepts_item today col filt item issue := by
  induction items with
  | nil =>
    intro is0 s0 issue h
    exact Or.inl (by simpa using h)
  | cons item rest ih =>
    intro is0 s0 issue h
    rw [List.foldl_cons] at h
    rcases hs : classify_step today col filt collect (is0, s0) item with ⟨i1, s1⟩
    rw [hs] at h
    rcases ih i1 s1 issue h with hmem | ⟨it, hit, hacc⟩
    · have hstep := classify_step_issues today col filt collect (is0, s0) item
      simp only [hs] at hstep
      rcases hstep with he | ⟨iss, hacc2, he⟩
      · rw [he] at hmem
        exact Or.inl hmem
      · rw [he] at hmem
        rcases List.mem_append.mp hmem with hmem | hmem
        · exact Or.inl hmem
        · right
          refine ⟨item, List.mem_cons_self item rest, ?_⟩
          rw [show issue = iss from by simpa using hmem]
          exact hacc2
    · exact Or.inr ⟨it, List.mem_cons_of_mem item hit, hacc⟩

/-- The issue output and counters of the classification loop do not depend on
the incoming observed-name sets. -/
theorem classify_fold_ext (today : Int) (col : String) (filt : Option String)
    (collect : Bool) (items : List ProjectItem) :
    ∀ (is0 : List Issue) (s0 s0' : FetchStats), counters s0 = counters s0' →
    (items.foldl (classify_step today col filt collect) (is0, s0)).1
      = (items.foldl (classify_step today col filt collect) (is0, s0')).1 ∧
    counters (items.foldl (classify_step today col filt collect) (is0, s0)).2
      = counters (items.foldl (classify_step today col filt collect) (is0, s0')).2 := by
  induction items with
  | nil =>
    intro is0 s0 s0' h
    exact ⟨rfl, h⟩
  | cons item rest ih =>
    intro is0 s0 s0' h
    rw [List.foldl_cons, List.foldl_cons]
    obtain ⟨hi, hc⟩ := classify_step_ext today col filt collect is0 s0 s0' item h
    rcases hs : classify_step today col filt collect (is0, s0) item with ⟨i1, s1⟩
    rcases hs' : classify_step today col filt collect (is0, s0') item with ⟨i1', s1'⟩
    simp only [hs, hs'] at hi hc
    rw [hi]
    exact ih i1' s1 s1' hc

/-- The classification loop with diagnostics disabled equals the loop with
diagnostics enabled with the observed-name sets reset to their input value. -/
theorem classify_fold_collect (today : Int) (col : String) (filt : Option String)
    (items : List ProjectItem) : ∀ (is0 : List Issue) (s0 : FetchStats),
    items.foldl (classify_step today col filt false) (is0, s0) =
      ((items.foldl (classify_step today col filt true) (is0, s0)).1,
       { (items.foldl (classify_step today col filt true) (is0, s0)).2 with
         columns_seen := s0.columns_seen, iterations_seen := s0.iterations_seen }) := by
  induction items with
  | nil =>
    intro is0 s0
    rfl
  | cons item rest ih =>
    intro is0 s0
    rw [List.foldl_cons, List.foldl_cons]
    rw [classify_step_collect today col filt is0 s0 item]
    rcases hs : classify_step today col filt true (is0, s0) item with ⟨i1, s1⟩
    rw [ih i1 { s1 with columns_seen := s0.columns_seen, iterations_seen := s0.iterations_seen }]
    obtain ⟨hi, hc⟩ := classify_fold_ext today col filt true rest i1
      { s1 with columns_seen := s0.columns_seen, iterations_seen := s0.iterations_seen } s1
      (by simp [counters])
    simp only [counters, Prod.mk.injEq] at hc
    obtain ⟨c1, c2, c3, c4, c5, c6⟩ := hc
    simp [Prod.ext_iff, FetchStats.mk.injEq, hi, c1, c2, c3, c4, c5, c6]

/-- Every name in the observed-columns set of the classification loop comes
from a non-archived item; every name in the observed-iterations set comes
from a non-archived item in the requested column. -/
theorem classify_fold_sets (today : Int) (col : String) (filt : Option String)
    (items : List ProjectItem) : ∀ (is0 : List Issue) (s0 : FetchStats),
    (∀ x ∈ (items.foldl (classify_step today col filt true) (is0, s0)).2.columns_seen,
      x ∈ s0.columns_seen ∨ ∃ item ∈ items, item.is_archived = false ∧ col_display item = x) ∧
    (∀ x ∈ (items.foldl (classify_step today col filt true) (is0, s0)).2.iterations_seen,
      x ∈ s0.iterations_seen ∨ ∃ item ∈ items, item.is_archived = false ∧
        item_column item = some col ∧ iter_display item = x) := by
  induction items with
  | nil =>
    intro is0 s0
    exact ⟨fun x hx => Or.inl (by simpa using hx), fun x hx => Or.inl (by simpa using hx)⟩
  | cons item rest ih =>
    intro is0 s0
    rw [List.foldl_cons]
    have hstep := classify_step_sets today col filt (is0, s0) item
    rcases hs : classify_step today col filt true (is0, s0) item with ⟨i1, s1⟩
    simp only [hs] at hstep
    obtain ⟨ihc, ihi⟩ := ih i1 s1
    constructor
    · intro x hx
      rcases ihc x hx with hx0 | ⟨it, hit, hfacts⟩
      · rcases hstep.1 with he | ⟨harch, he⟩
        · rw [he] at hx0
          exact Or.inl hx0
        · rw [he] at hx0
          rcases (mem_insert_seen_iff _ _ _).mp hx0 with hx0 | rfl
          · exact Or.inl hx0
          · exact Or.inr ⟨item, List.mem_cons_self item rest, harch, rfl⟩
      · exact Or.inr ⟨it, List.mem_cons_of_mem item hit, hfacts⟩
    · intro x hx
      rcases ihi x hx with hx0 | ⟨it, hit, hfacts⟩
      · rcases hstep.2 with he | ⟨harch, hcol, he⟩
        · rw [he] at hx0
          exact Or.inl hx0
        · rw [he] at hx0
          rcases (mem_insert_seen_iff _ _ _).mp hx0 with hx0 | rfl
          · exact Or.inl hx0
          · exact Or.inr ⟨item, List.mem_cons_self item rest, harch, hcol, rfl⟩
      · exact Or.inr ⟨it, List.mem_cons_of_mem item hit, hfacts⟩

/-- On a well-formed response, the page fetch succeeds with the page's
classification output. -/
theorem fetch_page_good (today : Int) (col : String) (filt : Option String) (collect : Bool)
    (resp : GraphQLResponse ProjectData) (h : good_page resp) :
    fetch_project_items_page today col filt collect resp =
      Except.ok (page_issues_of today col filt collect resp, page_info_of resp,
        page_stats_of today col filt collect resp) := by
  obtain ⟨he, hn⟩ := h
  obtain ⟨project, hp⟩ := Option.isSome_iff_exists.mp hn
  have hp' : resp.data.bind ProjectData.node = some project := hp
  unfold fetch_project_items_page page_issues_of page_stats_of page_info_of page_items page_node
  rw [he, hp']

/-- A successful page fetch means a well-formed response classified as the
page projections say. -/
theorem fetch_page_ok (today : Int) (col : String) (filt : Option String) (collect : Bool)
    (resp : GraphQLResponse ProjectData) (out : List Issue × PageInfo × FetchStats)
    (h : fetch_project_items_page today col filt collect resp = Except.ok out) :
    good_page resp ∧
    out = (page_issues_of today col filt collect resp, page_info_of resp,
      page_stats_of today col filt collect resp) := by
  rcases herr : resp.errors with _ | es
  · rcases hnode : resp.data.bind ProjectData.node with _ | project
    · unfold fetch_project_items_page at h
      rw [herr, hnode] at h
      exact absurd h (by simp)
    · have hg : good_page resp := by
        refine ⟨herr, ?_⟩
        show (resp.data.bind ProjectData.node).isSome = true
        rw [hnode]
        rfl
      rw [fetch_page_good today col filt collect resp hg] at h
      injection h with h
      exact ⟨hg, h.symm⟩
  · unfold fetch_project_items_page at h
    rw [herr] at h
    exact absurd h (by simp)

/-- A page fetch with diagnostics disabled equals the same fetch with
diagnostics enabled with the observed-name sets erased. -/
theorem fetch_page_collect (today : Int) (col : String) (filt : Option String)
    (resp : GraphQLResponse ProjectData) :
    fetch_project_items_page today col filt false resp =
      Except.map (fun r => (r.1, r.2.1, erase_sets r.2.2))
        (fetch_project_items_page today col filt true resp) := by
  rcases herr : resp.errors with _ | es
  · rcases hnode : resp.data.bind ProjectData.node with _ | project
    · unfold fetch_project_items_page
      rw [herr, hnode]
      rfl
    · have hg : good_page resp := by
        refine ⟨herr, ?_⟩
        show (resp.data.bind ProjectData.node).isSome = true
        rw [hnode]
        rfl
      rw [fetch_page_good today col filt false resp hg,
        fetch_page_good today col filt true resp hg]
      unfold page_issues_of page_stats_of
      rw [classify_fold_collect today col filt (page_items resp) []
        { total_items := (page_items resp).length }]
      rfl
  · unfold fetch_project_items_page
    rw [herr]
    rfl

/-- The per-issue time filter loop keeps the passing issues in order and
counts the dropped ones; no other stats field moves. -/
theorem time_fold_eq (since : Option Int) (issues : List Issue) :
    ∀ (acc : List Issue) (s : FetchStats),
    issues.foldl (time_step since) (acc, s) =
      (acc ++ time_kept since issues,
       { s with filtered_by_time := s.filtered_by_time + time_count since issues }) := by
  induction issues with
  | nil =>
    intro acc s
    simp [time_kept, time_count]
  | cons i rest ih =>
    intro acc s
    rw [List.foldl_cons]
    rcases since with _ | t
    · show rest.foldl (time_step none) (acc ++ [i], s) = _
      rw [ih (acc ++ [i]) s]
      simp [time_kept, time_count, time_pass, List.append_assoc]
    · rcases hca : i.closed_at with _ | ca
      · have hstep : time_step (some t) (acc, s) i =
            (acc, { s with filtered_by_time := s.filtered_by_time + 1 }) := by
          simp only [time_step, hca]
        rw [hstep, ih acc { s with filtered_by_time := s.filtered_by_time + 1 }]
        simp [time_kept, time_count, time_pass, hca]
        omega
      · by_cases hlt : ca < t
        · have hstep : time_step (some t) (acc, s) i =
              (acc, { s with filtered_by_time := s.filtered_by_time + 1 }) := by
            simp only [time_step, hca, if_pos hlt]
          rw [hstep, ih acc { s with filtered_by_time := s.filtered_by_time + 1 }]
          simp [time_kept, time_count, time_pass, hca, hlt]
          omega
        · have hstep : time_step (some t) (acc, s) i = (acc ++ [i], s) := by
            simp only [time_step, hca, if_neg hlt]
          rw [hstep, ih (acc ++ [i]) s]
          simp [time_kept, time_count, time_pass, hca, hlt, List.append_assoc]

/-- One round of the pagination loop on a well-formed page: append the page's
time-filtered issues, merge its stats, record the request, then either recurse
on the next cursor or stop. -/
theorem fetch_go_step (today : Int) (col : String) (since : Option Int)
    (filt : Option String) (collect : Bool) (resp : GraphQLResponse ProjectData)
    (rest : List (GraphQLResponse ProjectData)) (cursor : Option String)
    (acc : List Issue) (stats : FetchStats) (reqs : List (Option String))
    (h : good_page resp) :
    fetch_go today col since filt collect cursor (resp :: rest) acc stats reqs =
      if (page_info_of resp).has_next_page then
        fetch_go today col since filt collect (page_info_of resp).end_cursor rest
          (acc ++ accepted_of today col since filt collect resp)
          (merge_after_time today col since filt collect stats resp)
          (reqs ++ [cursor])
      else
        Except.ok (acc ++ accepted_of today col since filt collect resp,
          merge_after_time today col since filt collect stats resp,
          reqs ++ [cursor]) := by
  simp only [fetch_go]
  rw [fetch_page_good today col filt collect resp h]
  simp only [time_fold_eq since (page_issues_of today col filt collect resp) acc
    (merge_page_stats stats (page_stats_of today col filt collect resp))]
  rfl

/-- The counters of one loop round's stats update, in terms of the incoming
stats and the page projections. -/
theorem merge_after_time_components (today : Int) (col : String) (since : Option Int)
    (filt : Option String) (collect : Bool) (stats : FetchStats)
    (resp : GraphQLResponse ProjectData) :
    (merge_after_time today col since filt collect stats resp).total_items
      = stats.total_items + (page_stats_of today col filt collect resp).total_items ∧
    (merge_after_time today col since filt collect stats resp).archived
      = stats.archived + (page_stats_of today col filt collect resp).archived ∧
    (merge_after_time today col since filt collect stats resp).wrong_column
      = stats.wrong_column + (page_stats_of today col filt collect resp).wrong_column ∧
    (merge_after_time today col since filt collect stats resp).not_issue
      = stats.not_issue + (page_stats_of today col filt collect resp).not_issue ∧
    (merge_after_time today col since filt collect stats resp).filtered_by_iteration
      = stats.filtered_by_iteration
        + (page_stats_of today col filt collect resp).filtered_by_iteration ∧
    (merge_after_time today col since filt collect stats resp).filtered_by_time
      = stats.filtered_by_time
        + time_count since (page_issues_of today col filt collect resp) ∧
    (∀ x, x ∈ (merge_after_time today col since filt collect stats resp).columns_seen ↔
      x ∈ stats.columns_seen
        ∨ x ∈ (page_stats_of today col filt collect resp).columns_seen) ∧
    (∀ x, x ∈ (merge_after_time today col since filt collect stats resp).iterations_seen ↔
      x ∈ stats.iterations_seen
        ∨ x ∈ (page_stats_of today col filt collect resp).iterations_seen) := by
  refine ⟨rfl, rfl, rfl, rfl, rfl, rfl, fun x => ?_, fun x => ?_⟩ <;>
    exact mem_extend_seen _ _ _

/-- The counters of one page's classification stats partition the page. -/
theorem page_stats_partition (today : Int) (col : String) (filt : Option String)
    (collect : Bool) (resp : GraphQLResponse ProjectData) :
    (page_stats_of today col filt collect resp).total_items
      = (page_stats_of today col filt collect resp).archived
        + (page_stats_of today col filt collect resp).wrong_column
        + (page_stats_of today col filt collect resp).filtered_by_iteration
        + (page_stats_of today col filt collect resp).not_issue
        + (page_issues_of today col filt collect resp).length ∧
    (page_stats_of today col filt collect resp).filtered_by_time = 0 := by
  have h := classify_fold_counters today col filt collect (page_items resp) []
    { total_items := (page_items resp).length }
  unfold page_stats_of page_issues_of
  obtain ⟨h1, h2, h3⟩ := h
  simp at h1 h2 h3
  exact ⟨by omega, h3⟩

/-- A filter and its complement split a list's length. -/
theorem filter_length_partition (p : Issue → Bool) (l : List Issue) :
    (l.filter p).length + (l.filter (fun a => ! p a)).length = l.length := by
  induction l with
  | nil => rfl
  | cons a l ih =>
    cases hpa : p a <;> simp [List.filter_cons, hpa, ← ih] <;> omega

/-- The stats of every successful fetch partition the classified items
(loop-level invariant of `fetch_go`). -/
theorem fetch_go_invariant (today : Int) (col : String) (since : Option Int)
    (filt : Option String) (collect : Bool) (pages : List (GraphQLResponse ProjectData)) :
    ∀ (cursor : Option String) (acc : List Issue) (stats : FetchStats)
      (reqs : List (Option String)) (is' : List Issue) (st' : FetchStats)
      (rq' : List (Option String)),
    stats.total_items = stats.archived + stats.wrong_column + stats.filtered_by_iteration
      + stats.not_issue + acc.length + stats.filtered_by_time →
    fetch_go today col since filt collect cursor pages acc stats reqs
      = Except.ok (is', st', rq') →
    st'.total_items = st'.archived + st'.wrong_column + st'.filtered_by_iteration
      + st'.not_issue + is'.length + st'.filtered_by_time := by
  induction pages with
  | nil =>
    intro cursor acc stats reqs is' st' rq' hinv h
    exact absurd h (by simp [fetch_go])
  | cons resp rest ih =>
    intro cursor acc stats reqs is' st' rq' hinv h
    rcases hp : fetch_project_items_page today col filt collect resp with e | out
    · unfold fetch_go at h
      rw [hp] at h
      exact absurd h (by simp)
    · obtain ⟨hg, _⟩ := fetch_page_ok today col filt collect resp out hp
      rw [fetch_go_step today col since filt collect resp rest cursor acc stats reqs hg] at h
      have hm := merge_after_time_components today col since filt collect stats resp
      have hp2 := page_stats_partition today col filt collect resp
      have hkept : (accepted_of today col since filt collect resp).length
          + time_count since (page_issues_of today col filt collect resp)
          = (page_issues_of today col filt collect resp).length := by
        unfold accepted_of time_kept time_count
        exact filter_length_partition _ _
      obtain ⟨m1, m2, m3, m4, m5, m6, _, _⟩ := hm
      obtain ⟨p1, p2⟩ := hp2
      cases hnext : (page_info_of resp).has_next_page
      · rw [hnext, if_neg Bool.false_ne_true] at h
        injection h with h
        obtain ⟨e1, e2⟩ : is' = acc ++ accepted_of today col since filt collect resp ∧
            st' = merge_after_time today col since filt collect stats resp := by
          have h1 := congrArg Prod.fst h
          have h2 := congrArg (fun q => q.2.1) h
          exact ⟨h1.symm, h2.symm⟩
        subst e1
        subst e2
        rw [m1, m2, m3, m4, m5, m6, List.length_append]
        omega
      · rw [hnext, if_pos rfl] at h
        refine ih _ _ _ _ _ _ _ ?_ h
        rw [m1, m2, m3, m4, m5, m6, List.length_append]
        omega

/-- Every issue a successful fetch returns either came in through the
accumulator or originates from an accepted item of some consumed page and
passes the time filter. -/
theorem fetch_go_sound (today : Int) (col : String) (since : Option Int)
    (filt : Option String) (collect : Bool) (pages : List (GraphQLResponse ProjectData)) :
    ∀ (cursor : Option String) (acc : List Issue) (stats : FetchStats)
      (reqs : List (Option String)) (is' : List Issue) (st' : FetchStats)
      (rq' : List (Option String)) (issue : Issue),
    fetch_go today col since filt collect cursor pages acc stats reqs
      = Except.ok (is', st', rq') →
    issue ∈ is' →
    issue ∈ acc ∨ ((∃ item ∈ pages.flatMap page_items, accepts_item today col filt item issue)
      ∧ time_pass since issue = true) := by
  induction pages with
  | nil =>
    intro cursor acc stats reqs is' st' rq' issue h _
    exact absurd h (by simp [fetch_go])
  | cons resp rest ih =>
    intro cursor acc stats reqs is' st' rq' issue h hmem
    rcases hp : fetch_project_items_page today col filt collect resp with e | out
    · unfold fetch_go at h
      rw [hp] at h
      exact absurd h (by simp)
    · obtain ⟨hg, _⟩ := fetch_page_ok today col filt collect resp out hp
      rw [fetch_go_step today col since filt collect resp rest cursor acc stats reqs hg] at h
      have page_case : ∀ i, i ∈ acc ++ accepted_of today col since filt collect resp →
          i ∈ acc ∨ ((∃ item ∈ (resp :: rest).flatMap page_items, accepts_item today col filt item i)
            ∧ time_pass since i = true) := by
        intro i hi
        rcases List.mem_append.mp hi with hi | hi
        · exact Or.inl hi
        · right
          unfold accepted_of time_kept at hi
          obtain ⟨hi_in, hi_pass⟩ := List.mem_filter.mp hi
          refine ⟨?_, hi_pass⟩
          unfold page_issues_of at hi_in
          rcases classify_fold_sound today col filt collect (page_items resp) []
              { total_items := (page_items resp).length } i hi_in with h0 | ⟨item, hit, hacc⟩
          · exact absurd h0 (List.not_mem_nil i)
          · exact ⟨item, List.mem_flatMap.mpr ⟨resp, List.mem_cons_self resp rest, hit⟩, hacc⟩
      cases hnext : (page_info_of resp).has_next_page
      · rw [hnext, if_neg Bool.false_ne_true] at h
        injection h with h
        have his : is' = acc ++ accepted_of today col since filt collect resp :=
          (congrArg Prod.fst h).symm
        rw [his] at hmem
        exact page_case issue hmem
      · rw [hnext, if_pos rfl] at h
        rcases ih _ _ _ _ _ _ _ issue h hmem with hacc | ⟨⟨item, hit, hi⟩, hpass⟩
        · exact page_case issue hacc
        · right
          refine ⟨⟨item, ?_, hi⟩, hpass⟩
          rcases List.mem_flatMap.mp hit with ⟨p, hp2, hip⟩
          exact List.mem_flatMap.mpr ⟨p, List.mem_cons_of_mem resp hp2, hip⟩

/-- The issues a page accepts do not depend on the diagnostics flag. -/
theorem page_issues_collect (today : Int) (col : String) (filt : Option String)
    (resp : GraphQLResponse ProjectData) :
    page_issues_of today col filt false resp = page_issues_of today col filt true resp := by
  unfold page_issues_of
  rw [classify_fold_collect today col filt (page_items resp) []
    { total_items := (page_items resp).length }]

/-- The stats a page produces with diagnostics disabled are the
diagnostics-enabled stats with the observed-name sets erased. -/
theorem page_stats_collect (today : Int) (col : String) (filt : Option String)
    (resp : GraphQLResponse ProjectData) :
    page_stats_of today col filt false resp
      = erase_sets (page_stats_of today col filt true resp) := by
  unfold page_stats_of
  rw [classify_fold_collect today col filt (page_items resp) []
    { total_items := (page_items resp).length }]
  rfl

/-- The accepted issues of one loop round do not depend on the diagnostics
flag. -/
theorem accepted_of_collect (today : Int) (col : String) (since : Option Int)
    (filt : Option String) (resp : GraphQLResponse ProjectData) :
    accepted_of today col since filt false resp = accepted_of today col since filt true resp := by
  unfold accepted_of
  rw [page_issues_collect]

/-- One loop round's stats update commutes with erasing the observed-name
sets. -/
theorem merge_after_time_collect (today : Int) (col : String) (since : Option Int)
    (filt : Option String) (stats : FetchStats) (resp : GraphQLResponse ProjectData) :
    merge_after_time today col since filt false (erase_sets stats) resp
      = erase_sets (merge_after_time today col since filt true stats resp) := by
  unfold merge_after_time merge_page_stats
  rw [page_stats_collect, page_issues_collect]
  rfl

/-- The whole pagination loop with diagnostics disabled equals the loop with
diagnostics enabled with the observed-name sets of the final stats erased. -/
theorem fetch_go_collect (today : Int) (col : String) (since : Option Int)
    (filt : Option String) (pages : List (GraphQLResponse ProjectData)) :
    ∀ (cursor : Option String) (acc : List Issue) (stats : FetchStats)
      (reqs : List (Option String)),
    fetch_go today col since filt false cursor pages acc (erase_sets stats) reqs =
      Except.map (fun r => (r.1, erase_sets r.2.1, r.2.2))
        (fetch_go today col since filt true cursor pages acc stats reqs) := by
  induction pages with
  | nil =>
    intro cursor acc stats reqs
    rfl
  | cons resp rest ih =>
    intro cursor acc stats reqs
    rcases hp : fetch_project_items_page today col filt true resp with e | out
    · have hp' : fetch_project_items_page today col filt false resp = Except.error e := by
        rw [fetch_page_collect, hp]
        rfl
      unfold fetch_go
      rw [hp, hp']
      rfl
    · obtain ⟨hg, _⟩ := fetch_page_ok today col filt true resp out hp
      rw [fetch_go_step today col since filt false resp rest cursor acc (erase_sets stats) reqs hg,
        fetch_go_step today col since filt true resp rest cursor acc stats reqs hg]
      rw [accepted_of_collect, merge_after_time_collect]
      cases hnext : (page_info_of resp).has_next_page
      · rw [if_neg Bool.false_ne_true, if_neg Bool.false_ne_true]
        rfl
      · rw [if_pos rfl, if_pos rfl]
        exact ih _ _ _ _

/-- Folding the loop's per-page stats update sums every counter over the
pages and unions the observed-name sets. -/
theorem merge_fold_components (today : Int) (col : String) (since : Option Int)
    (filt : Option String) (collect : Bool) (pages : List (GraphQLResponse ProjectData)) :
    ∀ (stats : FetchStats),
    (pages.foldl (merge_after_time today col since filt collect) stats).total_items
      = stats.total_items
        + (pages.map (fun p => (page_stats_of today col filt collect p).total_items)).sum ∧
    (pages.foldl (merge_after_time today col since filt collect) stats).archived
      = stats.archived
        + (pages.map (fun p => (page_stats_of today col filt collect p).archived)).sum ∧
    (pages.foldl (merge_after_time today col since filt collect) stats).wrong_column
      = stats.wrong_column
        + (pages.map (fun p => (page_stats_of today col filt collect p).wrong_column)).sum ∧
    (pages.foldl (merge_after_time today col since filt collect) stats).not_issue
      = stats.not_issue
        + (pages.map (fun p => (page_stats_of today col filt collect p).not_issue)).sum ∧
    (pages.foldl (merge_after_time today col since filt collect) stats).filtered_by_iteration
      = stats.filtered_by_iteration
        + (pages.map
            (fun p => (page_stats_of today col filt collect p).filtered_by_iteration)).sum ∧
    (pages.foldl (merge_after_time today col since filt collect) stats).filtered_by_time
      = stats.filtered_by_time
        + (pages.map
            (fun p => time_count since (page_issues_of today col filt collect p))).sum ∧
    (∀ x, x ∈ (pages.foldl (merge_after_time today col since filt collect) stats).columns_seen
      ↔ x ∈ stats.columns_seen
        ∨ ∃ p ∈ pages, x ∈ (page_stats_of today col filt collect p).columns_seen) ∧
    (∀ x, x ∈ (pages.foldl (merge_after_time today col since filt collect) stats).iterations_seen
      ↔ x ∈ stats.iterations_seen
        ∨ ∃ p ∈ pages, x ∈ (page_stats_of today col filt collect p).iterations_seen) := by
  induction pages with
  | nil =>
    intro stats
    simp
  | cons resp rest ih =>
    intro stats
    rw [List.foldl_cons]
    obtain ⟨i1, i2, i3, i4, i5, i6, i7, i8⟩ :=
      ih (merge_after_time today col since filt collect stats resp)
    obtain ⟨m1, m2, m3, m4, m5, m6, m7, m8⟩ :=
      merge_after_time_components today col since filt collect stats resp
    refine ⟨?_, ?_, ?_, ?_, ?_, ?_, fun x => ?_, fun x => ?_⟩
    · rw [i1, m1, List.map_cons, List.sum_cons]
      omega
    · rw [i2, m2, List.map_cons, List.sum_cons]
      omega
    · rw [i3, m3, List.map_cons, List.sum_cons]
      omega
    · rw [i4, m4, List.map_cons, List.sum_cons]
      omega
    · rw [i5, m5, List.map_cons, List.sum_cons]
      omega
    · rw [i6, m6, List.map_cons, List.sum_cons]
      omega
    · rw [i7 x]
      rw [m7 x]
      constructor
      · rintro ((hx | hx) | ⟨p, hp2, hx⟩)
        · exact Or.inl hx
        · exact Or.inr ⟨resp, List.mem_cons_self resp rest, hx⟩
        · exact Or.inr ⟨p, List.mem_cons_of_mem resp hp2, hx⟩
      · rintro (hx | ⟨p, hp2, hx⟩)
        · exact Or.inl (Or.inl hx)
        · rcases List.mem_cons.mp hp2 with rfl | hp3
          · exact Or.inl (Or.inr hx)
          · exact Or.inr ⟨p, hp3, hx⟩
    · rw [i8 x]
      rw [m8 x]
      constructor
      · rintro ((hx | hx) | ⟨p, hp2, hx⟩)
        · exact Or.inl hx
        · exact Or.inr ⟨resp, List.mem_cons_self resp rest, hx⟩
        · exact Or.inr ⟨p, List.mem_cons_of_mem resp hp2, hx⟩
      · rintro (hx | ⟨p, hp2, hx⟩)
        · exact Or.inl (Or.inl hx)
        · rcases List.mem_cons.mp hp2 with rfl | hp3
          · exact Or.inl (Or.inr hx)
          · exact Or.inr ⟨p, hp3, hx⟩

/-- On a well-formed page sequence whose last page alone reports no next page,
the pagination loop consumes every page, issues one request per page passing
the previous page's end cursor, returns the concatenation of the pages'
accepted issues in order, and folds the stats over the pages. -/
theorem fetch_go_spec (today : Int) (col : String) (since : Option Int)
    (filt : Option String) (collect : Bool) (init : List (GraphQLResponse ProjectData)) :
    ∀ (last : GraphQLResponse ProjectData),
    (∀ p ∈ init, good_page p ∧ (page_info_of p).has_next_page = true) →
    good_page last → (page_info_of last).has_next_page = false →
    ∀ (cursor : Option String) (acc : List Issue) (stats : FetchStats)
      (reqs : List (Option String)),
    fetch_go today col since filt collect cursor (init ++ [last]) acc stats reqs =
      Except.ok
        (acc ++ (init ++ [last]).flatMap (accepted_of today col since filt collect),
         (init ++ [last]).foldl (merge_after_time today col since filt collect) stats,
         reqs ++ cursor :: init.map (fun p => (page_info_of p).end_cursor)) := by
  induction init with
  | nil =>
    intro last _ hlast hnolast cursor acc stats reqs
    rw [List.nil_append]
    rw [fetch_go_step today col since filt collect last [] cursor acc stats reqs hlast]
    rw [hnolast, if_neg Bool.false_ne_true]
    simp
  | cons p ps ih =>
    intro last hinit hlast hnolast cursor acc stats reqs
    obtain ⟨hgp, hnp⟩ := hinit p (List.mem_cons_self p ps)
    rw [List.cons_append]
    rw [fetch_go_step today col since filt collect p (ps ++ [last]) cursor acc stats reqs hgp]
    rw [hnp, if_pos rfl]
    rw [ih last (fun q hq => hinit q (List.mem_cons_of_mem p hq)) hlast hnolast]
    rw [List.flatMap_cons, List.foldl_cons, List.map_cons]
    simp [List.append_assoc]

/-- C3 counterexample: the user-project lookup receives a response with a
non-empty `errors` array and still succeeds — it never consults the array,
so the operation neither fails nor surfaces the messages. -/
theorem c3_user_lookup_ignores_errors :
    lookup_user_project
      { data := some { user := some { project_v2 := some { id := "PVT_ok" } } },
        errors := some [{ message := "boom" }] } = Except.ok "PVT_ok" := rfl

/-- C3 (amended): on an HTTP success carrying a non-empty `errors` array, the
organization lookup and the page fetch fail with all messages concatenated,
but the user lookup ignores the `errors` array entirely and decides from
`data` alone. -/
theorem c3_errors_surfaced_except_user_lookup (es : List GraphQLError) (_hne : es ≠ [])
    (number : Nat) (org : String) (org_data : Option OrgData)
    (today : Int) (column_name : String) (iteration_filter : Option String)
    (collect_stats : Bool) (page_data : Option ProjectData) :
    lookup_org_project number org { data := org_data, errors := some es } =
      Except.error ("GitHub API error: " ++ String.intercalate ", " (es.map GraphQLError.message)) ∧
    fetch_project_items_page today column_name iteration_filter collect_stats
      { data := page_data, errors := some es } =
      Except.error ("GraphQL errors: " ++ String.intercalate ", " (es.map GraphQLError.message)) ∧
    (∀ r : GraphQLResponse UserData,
      lookup_user_project r = lookup_user_project { data := r.data, errors := none }) :=
  ⟨rfl, rfl, fun _ => rfl⟩

/-- C3 witness: two error messages are joined with a comma and surfaced by both
the organization lookup and the page fetch. -/
theorem c3_errors_surfaced_except_user_lookup_witness :
    lookup_org_project 5 "acme"
      { data := none, errors := some [{ message := "a" }, { message := "b" }] } =
      Except.error "GitHub API error: a, b" ∧
    fetch_project_items_page 0 "Done" none false
      { data := none, errors := some [{ message := "a" }, { message := "b" }] } =
      Except.error "GraphQL errors: a, b" := by
  have h := c3_errors_surfaced_except_user_lookup [{ message := "a" }, { message := "b" }]
    (by decide) 5 "acme" none 0 "Done" none false none
  exact ⟨h.1.trans (congrArg Except.error (by decide)),
    h.2.1.trans (congrArg Except.error (by decide))⟩

/-! ## C8 -/

/-- C8 counterexample: `99999999999999999999d` is an integer immediately
followed by the unit `d`, but the integer exceeds the signed 64-bit range, so
the parse falls through to the error path instead of succeeding. -/
theorem c8_i64_overflow_duration_form_fails :
    "99999999999999999999".data.all Char.isDigit = true ∧
    parse_time_filter { now := 0, local_year := 1970, local_month := 1, local_day := 1, offset := 0 }
      "99999999999999999999d" =
      TimeFilterResult.err "Invalid time filter: \x2799999999999999999999d\x27. Use formats like: 7d, 24h, 30m, yesterday, today, this-week, this-month" := by
  decide

/-- C8 (amended): a trimmed, lowercased input of the form integer-then-unit
with the integer within the signed 64-bit range yields the current instant
minus the duration when the duration fits within the signed 64-bit
millisecond bound and the resulting instant stays within the representable
date range (years -262144 to 262143); it aborts when the duration overflows
(the `chrono::Duration` constructor panics) or when the subtracted instant
leaves the date range (the `DateTime - Duration` subtraction panics); an
input that is neither a recognized keyword nor a recognized duration fails
with the error naming the supported formats. -/
theorem c8_time_filter_parse (clock : Clock) (raw : String) (nc uc : List Char)
    (n ms ss : Int)
    (hnorm : (trim_chars raw.data).map Char.toLower = nc ++ uc)
    (hnum : parse_i64_chars nc = some n)
    (hunit : duration_unit (String.mk uc) = some (ms, ss)) :
    parse_time_filter clock raw =
      (if -(2 ^ 63) ≤ n * ms ∧ n * ms ≤ 2 ^ 63 - 1 then
        (if datetime_min_seconds ≤ clock.now - n * ss
            ∧ clock.now - n * ss ≤ datetime_max_seconds then
          TimeFilterResult.ok (clock.now - n * ss)
        else TimeFilterResult.panicked)
      else TimeFilterResult.panicked) ∧
    (∀ raw2 : String, normalize_input raw2 ≠ "yesterday" → normalize_input raw2 ≠ "today" →
      normalize_input raw2 ≠ "this-week" → normalize_input raw2 ≠ "this-month" →
      parse_duration (normalize_input raw2) = DurationResult.missed →
      parse_time_filter clock raw2 = TimeFilterResult.err
        ("Invalid time filter: \x27" ++ normalize_input raw2
          ++ "\x27. Use formats like: 7d, 24h, 30m, yesterday, today, this-week, this-month")) := by
  obtain ⟨hu_head, hu_ws⟩ := duration_unit_chars uc (ms, ss) hunit
  obtain ⟨hnc_ne, hnc_alpha, hnc_ws⟩ := parse_i64_chars_props nc n hnum
  have hin_ws : ∀ c ∈ nc ++ uc, c.isWhitespace = false := by
    intro c hc
    rcases List.mem_append.mp hc with h | h
    · exact hnc_ws c h
    · exact hu_ws c h
  have h_ne_nil : ¬ (nc ++ uc = []) := fun e => hnc_ne (List.append_eq_nil.mp e).1
  constructor
  · have hky1 := mk_append_ne_keyword nc uc n hnum "yesterday" 'y'
      ['e', 's', 't', 'e', 'r', 'd', 'a', 'y'] (by decide) (by decide)
    have hky2 := mk_append_ne_keyword nc uc n hnum "today" 't'
      ['o', 'd', 'a', 'y'] (by decide) (by decide)
    have hky3 := mk_append_ne_keyword nc uc n hnum "this-week" 't'
      ['h', 'i', 's', '-', 'w', 'e', 'e', 'k'] (by decide) (by decide)
    have hky4 := mk_append_ne_keyword nc uc n hnum "this-month" 't'
      ['h', 'i', 's', '-', 'm', 'o', 'n', 't', 'h'] (by decide) (by decide)
    have hpd : parse_duration (String.mk (nc ++ uc)) =
        (if -(2 ^ 63) ≤ n * ms ∧ n * ms ≤ 2 ^ 63 - 1 then DurationResult.dur (n * ss)
         else DurationResult.panicked) := by
      simp only [parse_duration, trim_chars_eq_self _ hin_ws, if_neg h_ne_nil,
        split_at_alpha_append nc uc hnc_alpha hu_head, hnum, hunit]
    simp only [parse_time_filter, normalize_input, hnorm, if_neg hky1, if_neg hky2,
      if_neg hky3, if_neg hky4, hpd]
    by_cases hb : -(2 ^ 63) ≤ n * ms ∧ n * ms ≤ 2 ^ 63 - 1
    · simp only [if_pos hb]
    · simp only [if_neg hb]
  · intro raw2 h1 h2 h3 h4 h5
    simp only [parse_time_filter, if_neg h1, if_neg h2, if_neg h3, if_neg h4, h5]

/-- C8 witness: `7d` parses to now minus seven days, `1000000000d` fits the
duration bound but leaves the date range and so aborts, and `not-a-filter`
fails with the format-naming error. -/
theorem c8_time_filter_parse_witness :
    parse_time_filter { now := 0, local_year := 1970, local_month := 1, local_day := 1, offset := 0 }
      "7d" = TimeFilterResult.ok ((0 : Int) - 7 * 86400) ∧
    parse_time_filter { now := 0, local_year := 1970, local_month := 1, local_day := 1, offset := 0 }
      "1000000000d" = TimeFilterResult.panicked ∧
    parse_time_filter { now := 0, local_year := 1970, local_month := 1, local_day := 1, offset := 0 }
      "not-a-filter" =
      TimeFilterResult.err "Invalid time filter: \x27not-a-filter\x27. Use formats like: 7d, 24h, 30m, yesterday, today, this-week, this-month" := by
  have h := c8_time_filter_parse
    { now := 0, local_year := 1970, local_month := 1, local_day := 1, offset := 0 }
    "7d" ['7'] ['d'] 7 86400000 86400 (by decide) (by decide) (by decide)
  have hbig := c8_time_filter_parse
    { now := 0, local_year := 1970, local_month := 1, local_day := 1, offset := 0 }
    "1000000000d" ['1', '0', '0', '0', '0', '0', '0', '0', '0', '0'] ['d']
    1000000000 86400000 86400 (by decide) (by decide) (by decide)
  refine ⟨h.1.trans (by decide), hbig.1.trans (by decide), ?_⟩
  have h2 := h.2 "not-a-filter" (by decide) (by decide) (by decide) (by decide) (by decide)
  exact h2.trans (congrArg TimeFilterResult.err (by decide))

/-! ## C1 -/

/-- C1: every issue a successful fetch returns originates from a board item
that is not archived, whose resolved status name equals the requested column
by exact string equality, that satisfies the iteration filter when one is
supplied, whose content is issue-typed, and — when a time cutoff is
supplied — the issue has a closed timestamp at or after the cutoff. -/
theorem c1_returned_issue_provenance (today : Int) (col : String) (since : Option Int)
    (filt : Option String) (collect : Bool) (pages : List (GraphQLResponse ProjectData))
    (issues : List Issue) (stats : FetchStats) (reqs : List (Option String))
    (h : fetch_project_issues today col since filt collect pages
      = Except.ok (issues, stats, reqs)) :
    ∀ issue ∈ issues, ∃ item ∈ pages.flatMap page_items,
      item.is_archived = false ∧
      item_column item = some col ∧
      (∀ f, filt = some f → matches_iteration_filter today (item_iteration item)
        (item_iteration_start item) f = true) ∧
      (∃ content, item.content = some (ItemContent.issue content) ∧
        issue = issue_of_content content) ∧
      (∀ t, since = some t →
        ∃ closed_at, issue.closed_at = some closed_at ∧ t ≤ closed_at) := by
  intro issue hmem
  rcases fetch_go_sound today col since filt collect pages none [] {} [] issues stats reqs
      issue h hmem with h0 | ⟨⟨item, hit, hacc⟩, hpass⟩
  · exact absurd h0 (List.not_mem_nil issue)
  · refine ⟨item, hit, hacc.1, hacc.2.1, hacc.2.2.1, hacc.2.2.2, ?_⟩
    intro t ht
    rw [ht] at hpass
    unfold time_pass at hpass
    rcases hca : issue.closed_at with _ | ca
    · rw [hca] at hpass
      exact absurd hpass (by simp)
    · rw [hca] at hpass
      refine ⟨ca, rfl, ?_⟩
      have := of_decide_eq_true hpass
      omega

/-- C1 witness: the one issue fetched from the sample board originates from
its non-archived `Done` item and survives the cutoff 3. -/
theorem c1_returned_issue_provenance_witness :
    ∃ item ∈ [sample_page].flatMap page_items,
      item.is_archived = false ∧
      item_column item = some "Done" ∧
      (∀ f, (none : Option String) = some f → matches_iteration_filter 0 (item_iteration item)
        (item_iteration_start item) f = true) ∧
      (∃ content, item.content = some (ItemContent.issue content) ∧
        sample_issue = issue_of_content content) ∧
      (∀ t, (some 3 : Option Int) = some t →
        ∃ closed_at, sample_issue.closed_at = some closed_at ∧ t ≤ closed_at) :=
  c1_returned_issue_provenance 0 "Done" (some 3) none false [sample_page]
    [sample_issue] { total_items := 1 } [none] (by decide) sample_issue (by decide)

/-! ## C2 -/

/-- C2: after a successful fetch the stats counters partition the total —
`total_items` equals archived plus wrong-column plus filtered-by-iteration
plus not-issue plus (returned issues plus filtered-by-time) — and the same
partition holds for each single page's classification. -/
theorem c2_stats_partition (today : Int) (col : String) (since : Option Int)
    (filt : Option String) (collect : Bool) (pages : List (GraphQLResponse ProjectData))
    (issues : List Issue) (stats : FetchStats) (reqs : List (Option String))
    (h : fetch_project_issues today col since filt collect pages
      = Except.ok (issues, stats, reqs)) :
    stats.total_items = stats.archived + stats.wrong_column + stats.filtered_by_iteration
      + stats.not_issue + (issues.length + stats.filtered_by_time) ∧
    (∀ resp pis pinfo pstats,
      fetch_project_items_page today col filt collect resp = Except.ok (pis, pinfo, pstats) →
      pstats.total_items = pstats.archived + pstats.wrong_column
        + pstats.filtered_by_iteration + pstats.not_issue
        + (pis.length + pstats.filtered_by_time)) := by
  constructor
  · have hinv := fetch_go_invariant today col since filt collect pages none [] {} []
      issues stats reqs (by simp) h
    omega
  · intro resp pis pinfo pstats hp
    obtain ⟨hg, hout⟩ := fetch_page_ok today col filt collect resp _ hp
    have e1 : pis = page_issues_of today col filt collect resp := congrArg Prod.fst hout
    have e3 : pstats = page_stats_of today col filt collect resp :=
      congrArg (fun q => q.2.2) hout
    rw [e1, e3]
    obtain ⟨q1, q2⟩ := page_stats_partition today col filt collect resp
    omega

/-- C2 witness: the sample fetch succeeds and its stats partition the total. -/
theorem c2_stats_partition_witness :
    ∃ stats : FetchStats,
      fetch_project_issues 0 "Done" (some 3) none false [sample_page]
        = Except.ok ([sample_issue], stats, [none]) ∧
      stats.total_items = stats.archived + stats.wrong_column + stats.filtered_by_iteration
        + stats.not_issue + ([sample_issue].length + stats.filtered_by_time) :=
  ⟨{ total_items := 1 }, by decide,
    (c2_stats_partition 0 "Done" (some 3) none false [sample_page]
      [sample_issue] { total_items := 1 } [none] (by decide)).1⟩

/-! ## C9 -/

/-- C9: the diagnostics flag changes neither the returned issues nor any
numeric counter — a fetch with the flag off equals the fetch with the flag on
with the two observed-name sets erased (and those sets are empty when the
flag is off); with the flag on, every observed column name comes from a
non-archived item and every observed iteration name from a non-archived item
in the requested column. -/
theorem c9_diagnostics_flag (today : Int) (col : String) (since : Option Int)
    (filt : Option String) :
    (∀ pages : List (GraphQLResponse ProjectData),
      fetch_project_issues today col since filt false pages =
        Except.map (fun r => (r.1, erase_sets r.2.1, r.2.2))
          (fetch_project_issues today col since filt true pages)) ∧
    (∀ resp pis pinfo pstats,
      fetch_project_items_page today col filt false resp = Except.ok (pis, pinfo, pstats) →
      pstats.columns_seen = [] ∧ pstats.iterations_seen = []) ∧
    (∀ resp pis pinfo pstats,
      fetch_project_items_page today col filt true resp = Except.ok (pis, pinfo, pstats) →
      (∀ x ∈ pstats.columns_seen, ∃ item ∈ page_items resp,
        item.is_archived = false ∧ col_display item = x) ∧
      (∀ x ∈ pstats.iterations_seen, ∃ item ∈ page_items resp,
        item.is_archived = false ∧ item_column item = some col ∧ iter_display item = x)) := by
  refine ⟨fun pages => ?_, fun resp pis pinfo pstats hp => ?_,
    fun resp pis pinfo pstats hp => ?_⟩
  · exact fetch_go_collect today col since filt pages none [] {} []
  · obtain ⟨hg, hout⟩ := fetch_page_ok today col filt false resp _ hp
    have e3 : pstats = page_stats_of today col filt false resp :=
      congrArg (fun q => q.2.2) hout
    rw [e3, page_stats_collect]
    exact ⟨rfl, rfl⟩
  · obtain ⟨hg, hout⟩ := fetch_page_ok today col filt true resp _ hp
    have e3 : pstats = page_stats_of today col filt true resp :=
      congrArg (fun q => q.2.2) hout
    obtain ⟨hc, hi⟩ := classify_fold_sets today col filt (page_items resp) []
      { total_items := (page_items resp).length }
    rw [e3]
    unfold page_stats_of
    constructor
    · intro x hx
      rcases hc x hx with h0 | ⟨item, hit, hfacts⟩
      · exact absurd h0 (by simp)
      · exact ⟨item, hit, hfacts⟩
    · intro x hx
      rcases hi x hx with h0 | ⟨item, hit, hfacts⟩
      · exact absurd h0 (by simp)
      · exact ⟨item, hit, hfacts⟩

/-- C9 witness: on the sample board the diagnostics-off fetch equals the
diagnostics-on fetch with its sets erased, and the observed column `Done`
comes from a non-archived item. -/
theorem c9_diagnostics_flag_witness :
    fetch_project_issues 0 "Done" none none false [sample_page] =
      Except.map (fun r => (r.1, erase_sets r.2.1, r.2.2))
        (fetch_project_issues 0 "Done" none none true [sample_page]) ∧
    (∃ item ∈ page_items sample_page, item.is_archived = false ∧ col_display item = "Done") :=
  ⟨(c9_diagnostics_flag 0 "Done" none none).1 [sample_page],
    ((c9_diagnostics_flag 0 "Done" none none).2.2 sample_page [sample_issue]
      { has_next_page := false, end_cursor := none }
      { total_items := 1, columns_seen := ["Done"], iterations_seen := ["<no iteration>"] }
      (by decide)).1 "Done" (by decide)⟩

/-! ## C5 -/

/-- C5: on a finite page sequence where only the last page reports no next
page, the fetch terminates with exactly one request per page — the first with
no cursor, each next passing the previous page's end cursor verbatim — and
returns the concatenation of all pages' accepted issues in page and
within-page order, with every stats counter summed over the pages and the
observed-name sets unioned. -/
theorem c5_pagination_spec (today : Int) (col : String) (since : Option Int)
    (filt : Option String) (collect : Bool) (init : List (GraphQLResponse ProjectData))
    (last : GraphQLResponse ProjectData)
    (hinit : ∀ p ∈ init, good_page p ∧ (page_info_of p).has_next_page = true)
    (hlast : good_page last) (hnolast : (page_info_of last).has_next_page = false) :
    ∃ S : FetchStats,
      fetch_project_issues today col since filt collect (init ++ [last]) =
        Except.ok ((init ++ [last]).flatMap (accepted_of today col since filt collect), S,
          none :: ((init ++ [last]).dropLast.map (fun p => (page_info_of p).end_cursor))) ∧
      (none :: ((init ++ [last]).dropLast.map
        (fun p => (page_info_of p).end_cursor))).length = (init ++ [last]).length ∧
      S.total_items = ((init ++ [last]).map
        (fun p => (page_stats_of today col filt collect p).total_items)).sum ∧
      S.archived = ((init ++ [last]).map
        (fun p => (page_stats_of today col filt collect p).archived)).sum ∧
      S.wrong_column = ((init ++ [last]).map
        (fun p => (page_stats_of today col filt collect p).wrong_column)).sum ∧
      S.not_issue = ((init ++ [last]).map
        (fun p => (page_stats_of today col filt collect p).not_issue)).sum ∧
      S.filtered_by_iteration = ((init ++ [last]).map
        (fun p => (page_stats_of today col filt collect p).filtered_by_iteration)).sum ∧
      S.filtered_by_time = ((init ++ [last]).map
        (fun p => time_count since (page_issues_of today col filt collect p))).sum ∧
      (∀ x, x ∈ S.columns_seen ↔
        ∃ p ∈ init ++ [last], x ∈ (page_stats_of today col filt collect p).columns_seen) ∧
      (∀ x, x ∈ S.iterations_seen ↔
        ∃ p ∈ init ++ [last], x ∈ (page_stats_of today col filt collect p).iterations_seen) := by
  have hdrop : (init ++ [last]).dropLast = init := by simp
  obtain ⟨m1, m2, m3, m4, m5, m6, m7, m8⟩ :=
    merge_fold_components today col since filt collect (init ++ [last]) {}
  refine ⟨(init ++ [last]).foldl (merge_after_time today col since filt collect) {},
    ?_, ?_, by simpa using m1, by simpa using m2, by simpa using m3, by simpa using m4,
    by simpa using m5, by simpa using m6, fun x => by simpa using m7 x,
    fun x => by simpa using m8 x⟩
  · unfold fetch_project_issues
    rw [fetch_go_spec today col since filt collect init last hinit hlast hnolast none [] {} []]
    rw [hdrop, List.nil_append, List.nil_append]
  · rw [hdrop]
    simp

/-- C5 witness: an intermediate page with a next cursor followed by a final
page yields two requests — `none`, then the cursor `c1` — and the final
page's issue. -/
theorem c5_pagination_spec_witness :
    ∃ S : FetchStats,
      fetch_project_issues 0 "Done" none none false ([sample_page_more] ++ [sample_page]) =
        Except.ok (([sample_page_more] ++ [sample_page]).flatMap
            (accepted_of 0 "Done" none none false), S,
          none :: (([sample_page_more] ++ [sample_page]).dropLast.map
            (fun p => (page_info_of p).end_cursor))) ∧
      (none :: (([sample_page_more] ++ [sample_page]).dropLast.map
        (fun p => (page_info_of p).end_cursor))).length
        = ([sample_page_more] ++ [sample_page]).length ∧
      S.total_items = (([sample_page_more] ++ [sample_page]).map
        (fun p => (page_stats_of 0 "Done" none false p).total_items)).sum ∧
      S.archived = (([sample_page_more] ++ [sample_page]).map
        (fun p => (page_stats_of 0 "Done" none false p).archived)).sum ∧
      S.wrong_column = (([sample_page_more] ++ [sample_page]).map
        (fun p => (page_stats_of 0 "Done" none false p).wrong_column)).sum ∧
      S.not_issue = (([sample_page_more] ++ [sample_page]).map
        (fun p => (page_stats_of 0 "Done" none false p).not_issue)).sum ∧
      S.filtered_by_iteration = (([sample_page_more] ++ [sample_page]).map
        (fun p => (page_stats_of 0 "Done" none false p).filtered_by_iteration)).sum ∧
      S.filtered_by_time = (([sample_page_more] ++ [sample_page]).map
        (fun p => time_count none (page_issues_of 0 "Done" none false p))).sum ∧
      (∀ x, x ∈ S.columns_seen ↔
        ∃ p ∈ [sample_page_more] ++ [sample_page],
          x ∈ (page_stats_of 0 "Done" none false p).columns_seen) ∧
      (∀ x, x ∈ S.iterations_seen ↔
        ∃ p ∈ [sample_page_more] ++ [sample_page],
          x ∈ (page_stats_of 0 "Done" none false p).iterations_seen) :=
  c5_pagination_spec 0 "Done" none none false [sample_page_more] sample_page
    (by decide) (by decide) (by decide)

end Doner
